import Mathlib

/-
Verification of the phosphor-plugins registration / lifecycle / matching
engine against its specification.

The development shallowly embeds the TypeScript sources:

* the registry state machine of `src/unnamed/part_015` (plugin, extension
  and extension-point registries, lazy matching, race-safe disposal), whose
  structure is shared with `src/src/registry.ts` and `src/unnamed/part_014`;
  asynchronous promise continuations are modelled as explicit pending tasks
  interleaved with caller events;
* the map-based `ExtensionPoint` class of `src/unnamed/part_017` (also in
  `src/unnamed/part_011`), with its duplicate-add idempotence, its
  disposed/mismatch guards, and its handle disposal on removal;
* the `safeDispose` helpers: the catching variants of `part_011`/`part_015`
  and the non-catching variant of `part_017`.

JavaScript string-keyed objects (`Object.create(null)`) are modelled as
association lists with JS insertion-order semantics; record references are
modelled as indices (tokens) into an append-only store, so that a settle
handler can still mutate a record that was already removed from a registry.
-/

/-! ## Association-list operations (JS string-keyed object semantics) -/

/-- Lookup of `m[k]`: the first binding of key `k`, if any. -/
def alookup {α : Type} : List (String × α) → String → Option α
  | [], _ => none
  | (k', v) :: rest, k => if k' = k then some v else alookup rest k

/-- Assignment `m[k] = v`: replace the binding in place, else append
(JS objects keep insertion order and a single binding per key). -/
def aset {α : Type} : List (String × α) → String → α → List (String × α)
  | [], k, v => [(k, v)]
  | (k', v') :: rest, k, v =>
      if k' = k then (k, v) :: rest else (k', v') :: aset rest k v

/-- Deletion `delete m[k]`: remove every binding of key `k`. -/
def aerase {α : Type} : List (String × α) → String → List (String × α)
  | [], _ => []
  | (k', v) :: rest, k =>
      if k' = k then aerase rest k else (k', v) :: aerase rest k

theorem alookup_aset_self {α : Type} (m : List (String × α)) (k : String) (v : α) :
    alookup (aset m k v) k = some v := by
  induction m with
  | nil => simp [aset, alookup]
  | cons hd tl ih =>
      by_cases h : hd.1 = k
      · simp [aset, alookup, h]
      · cases hd with
        | mk k' v' =>
            simp only [aset, alookup]
            simp only [Prod.fst] at h
            rw [if_neg h, alookup, if_neg h]
            exact ih

theorem alookup_aset_ne {α : Type} (m : List (String × α)) (k k' : String) (v : α)
    (h : k ≠ k') : alookup (aset m k v) k' = alookup m k' := by
  induction m with
  | nil => simp [aset, alookup, h]
  | cons hd tl ih =>
      cases hd with
      | mk k0 v0 =>
          by_cases h0 : k0 = k
          · simp [aset, alookup, h0, h]
          · simp only [aset, if_neg h0, alookup]
            by_cases h1 : k0 = k'
            · simp [h1]
            · rw [if_neg h1, if_neg h1]
              exact ih

theorem alookup_aerase_self {α : Type} (m : List (String × α)) (k : String) :
    alookup (aerase m k) k = none := by
  induction m with
  | nil => simp [aerase, alookup]
  | cons hd tl ih =>
      cases hd with
      | mk k0 v0 =>
          by_cases h0 : k0 = k
          · simpa [aerase, h0] using ih
          · simpa [aerase, alookup, h0] using ih

theorem alookup_aerase_ne {α : Type} (m : List (String × α)) (k k' : String)
    (h : k' ≠ k) : alookup (aerase m k) k' = alookup m k' := by
  induction m with
  | nil => simp [aerase, alookup]
  | cons hd tl ih =>
      cases hd with
      | mk k0 v0 =>
          by_cases h0 : k0 = k
          · subst h0
            simpa [aerase, alookup, Ne.symm h] using ih
          · by_cases h1 : k0 = k'
            · simp [aerase, alookup, h0, h1, h]
            · simpa [aerase, alookup, h0, h1] using ih

/-! ## Untyped JavaScript object values

An `ObjVal` stands for an arbitrary JS object handed around by factories
and receivers. Only the capabilities the code duck-type-checks are kept:
whether `add`/`remove` are functions (`isReceiver`), whether `dispose` is a
function, and whether calling `dispose` throws. The `tag` gives the object
an identity so that disposal logs can be compared. -/

structure ObjVal where
  tag : Nat
  hasAdd : Bool
  hasRemove : Bool
  disposable : Bool
  disposeThrows : Bool
deriving DecidableEq, Repr

/-- `isReceiver` from `part_015`: the object exposes callable `add` and
`remove` members. -/
def isReceiver (o : ObjVal) : Bool :=
  o.hasAdd && o.hasRemove

/-! ## Extension and extension point values (`part_015` classes) -/

/-- The immutable `IExtension` value built by `Extension.create`
(`part_015`). `item`, `dataVal` and `config` are `none` when the JS fields
are `null`; `disposed` is the `_disposed` flag. -/
structure Extension where
  id : String
  point : String
  item : Option ObjVal
  dataVal : Option Nat
  config : Option Nat
  disposed : Bool
deriving DecidableEq, Repr

/-- The `IExtensionPoint` value of the `part_015` `ExtensionPoint` class:
an id and a receiver object (`none` once disposed). -/
structure ExtensionPoint where
  id : String
  receiver : Option ObjVal
  disposed : Bool
deriving DecidableEq, Repr

/-- Observable effects of a run: logged errors, `dispose()` invocations
(by object tag), `point.add` method calls, and receiver `add`/`remove`
invocations. -/
structure RunLog where
  errors : List String
  disposedTags : List Nat
  ptAddCalls : List (String × String)
  recvAdds : List (Nat × Extension)
  recvRemoves : List (Nat × String)
deriving DecidableEq, Repr

/-- The empty log. -/
def RunLog.empty : RunLog :=
  { errors := [], disposedTags := [], ptAddCalls := [], recvAdds := [], recvRemoves := [] }

/-- `safeDispose` of `part_015` (lines 299-307) and `part_011` (lines
225-233): if the object has a callable `dispose`, invoke it; any thrown
error is caught and logged. The function is total: it never propagates. -/
def safeDispose (log : RunLog) (o : Option ObjVal) : RunLog :=
  match o with
  | none => log
  | some v =>
      if v.disposable then
        if v.disposeThrows then
          { log with disposedTags := log.disposedTags ++ [v.tag],
                     errors := log.errors ++ ["dispose error"] }
        else
          { log with disposedTags := log.disposedTags ++ [v.tag] }
      else log

/-- `safeDispose` of `part_017` (lines 220-222): null/type check only, no
`try`/`catch` — a throwing `dispose` propagates to the caller. On success
the disposed tags are returned; on a throw the error escapes. -/
def safeDispose17 (o : Option ObjVal) : Except String (List Nat) :=
  match o with
  | none => Except.ok []
  | some v =>
      if v.disposable then
        if v.disposeThrows then Except.error "dispose error"
        else Except.ok [v.tag]
      else Except.ok []

/-- `safeDisposeMap` of `part_011` (lines 241-243): dispose every
maybe-disposable value in a map with the catching `safeDispose`. -/
def safeDisposeMap (log : RunLog) (m : List (String × ObjVal)) : RunLog :=
  m.foldl (fun acc kv => safeDispose acc (some kv.2)) log

/-- `Extension.create` of `part_015` (lines 429-452): assemble the
immutable extension value from the spec results (`item || null` etc. are
modelled by the `Option`s). -/
def Extension.create (id point : String) (item : Option ObjVal) (dataVal config : Option Nat) : Extension :=
  { id := id, point := point, item := item, dataVal := dataVal,
    config := config, disposed := false }

/-- `Extension.dispose` of `part_015` (lines 457-466): idempotent; flips
the flag, safe-disposes the item, nulls the fields. -/
def Extension.disposeOp (e : Extension) (log : RunLog) : Extension × RunLog :=
  if e.disposed then (e, log)
  else ({ e with disposed := true, item := none, dataVal := none, config := none },
        safeDispose log e.item)

/-- `ExtensionPoint.add` of `part_015` (lines 818-820): forward to
`receiver.add`. A `point.add` method call is always recorded; calling on a
nulled receiver is the JS `TypeError`. -/
def ExtensionPoint.addOp (p : ExtensionPoint) (e : Extension) (log : RunLog) : RunLog :=
  match p.receiver with
  | some r =>
      { log with ptAddCalls := log.ptAddCalls ++ [(p.id, e.id)],
                 recvAdds := log.recvAdds ++ [(r.tag, e)] }
  | none => { log with errors := log.errors ++ ["TypeError: receiver is null"] }

/-- `ExtensionPoint.remove` of `part_015` (lines 825-827): forward to
`receiver.remove`. -/
def ExtensionPoint.removeOp (p : ExtensionPoint) (id : String) (log : RunLog) : RunLog :=
  match p.receiver with
  | some r => { log with recvRemoves := log.recvRemoves ++ [(r.tag, id)] }
  | none => { log with errors := log.errors ++ ["TypeError: receiver is null"] }

/-- `ExtensionPoint.dispose` of `part_015` (lines 792-799): idempotent;
flips the flag, safe-disposes the receiver, nulls it. -/
def ExtensionPoint.disposeOp (p : ExtensionPoint) (log : RunLog) : ExtensionPoint × RunLog :=
  if p.disposed then (p, log)
  else ({ p with disposed := true, receiver := none }, safeDispose log p.receiver)

/-! ## Specs and registration records -/

/-- The lifecycle enum `RecordState` (`part_015` lines 257-277,
`src/src/registry.ts` lines 90-110). -/
inductive RecordState where
  | unloaded
  | loading
  | loaded
  | disposed
deriving DecidableEq, Repr

/-- `IExtensionSpec` of `part_015` (lines 522-552): empty-string fields
stand for the JS `''` defaults, `config := none` for `null`. -/
structure ExtensionSpec where
  id : String
  point : String
  main : String
  factory : String
  dataPath : String
  config : Option Nat
deriving DecidableEq, Repr

/-- `IPointSpec` of `part_015` (lines 838-853). -/
structure PointSpec where
  id : String
  main : String
  factory : String
deriving DecidableEq, Repr

/-- `IExtensionRecord` of `part_015` (lines 558-578). The in-flight
promise is represented by the pending-task queue of the machine state, not
stored in the record. -/
structure ExtensionRecord where
  state : RecordState
  spec : ExtensionSpec
  value : Option Extension
deriving DecidableEq, Repr

/-- `IPointRecord` of `part_015` (lines 859-879). -/
structure PointRecord where
  state : RecordState
  spec : PointSpec
  value : Option ExtensionPoint
deriving DecidableEq, Repr

/-- `IPluginRecord` of `part_015` (lines 332-352), reduced to the fields
`loadPlugin` (an empty stub in `part_015`, line 364) can ever touch: the
`spec` stays `null` and the promise never exists. -/
structure PluginRecord where
  state : RecordState
  name : String
deriving DecidableEq, Repr

/-! ## The module-loader capability (`System.import`)

`SysEnv` is the external collaborator: a deterministic oracle giving the
outcome of every `System.import` call and of every factory invocation.
An `ExtModule`/`PtModule` maps an export name to `none` when the export is
missing or not a function (`typeof main[spec.factory] !== 'function'`), and
otherwise to the outcome of calling it (a throw/rejection, or a value). -/

structure ExtModule where
  factoryAt : String → Option (Except String (Option ObjVal))

structure PtModule where
  factoryAt : String → Option (Except String ObjVal)

structure SysEnv where
  importData : String → Except String Nat
  importExtMain : String → Except String ExtModule
  importPtMain : String → Except String PtModule

/-- The outcome of the `loadExtension` promise chain of `part_015`
(lines 617-648), as a pure function of the spec and the loader oracle:
load the JSON data if given, load the main module if given, then look up
and call the factory if both a module and a factory name are present. -/
def extLoadOutcome (env : SysEnv) (spec : ExtensionSpec) :
    Except String (Option ObjVal × Option Nat) := do
  let d ← if spec.dataPath ≠ "" then (env.importData spec.dataPath).map some
          else pure none
  let m ← if spec.main ≠ "" then (env.importExtMain spec.main).map some
          else pure none
  match m with
  | none => pure (none, d)
  | some mm =>
      if spec.factory = "" then pure (none, d)
      else
        match mm.factoryAt spec.factory with
        | none => Except.error ("Extension " ++ spec.id ++ " has invalid factory.")
        | some call => do
            let item ← call
            pure (item, d)

/-- The outcome of the `loadPoint` promise chain of `part_015`
(lines 920-944): import the main module unconditionally, look up and call
the factory, then validate the produced receiver with `isReceiver`. -/
def ptLoadOutcome (env : SysEnv) (spec : PointSpec) : Except String ObjVal := do
  let m ← env.importPtMain spec.main
  match m.factoryAt spec.factory with
  | none => Except.error ("Extension point " ++ spec.id ++ " has invalid factory.")
  | some call => do
      let r ← call
      if isReceiver r then pure r
      else Except.error ("Extension point " ++ spec.id ++ " has invalid receiver.")

/-! ## The machine state

Records live in append-only stores and are referred to by index (token),
mirroring JS object references: a settle handler keeps its reference even
after the record is deleted from a registry map. The registries map ids to
tokens. Pending tasks are the not-yet-run promise continuations. -/

/-- A not-yet-run asynchronous continuation. `extSettle`/`ptSettle` are
the final `.then`/`.catch` handlers of a record load chain (the settled
outcome is fixed when the chain is started); `matchSettle` is the
`Promise.all` continuation of `loadMatch`. -/
inductive MTask where
  | extSettle (tok : Nat) (outcome : Except String (Option ObjVal × Option Nat))
  | ptSettle (tok : Nat) (outcome : Except String ObjVal)
  | matchSettle (ptok : Nat) (etok : Nat)

/-- The global mutable state of `part_015`: the three registries, the
record stores, the pending continuations and the observable log. -/
structure MachineState where
  extRecs : List ExtensionRecord
  ptRecs : List PointRecord
  extReg : List (String × Nat)
  ptReg : List (String × Nat)
  plugReg : List (String × PluginRecord)
  pending : List MTask
  log : RunLog

/-- The initial state: empty registries, no records, nothing pending. -/
def initState : MachineState :=
  { extRecs := [], ptRecs := [], extReg := [], ptReg := [], plugReg := [],
    pending := [], log := RunLog.empty }

/-! ## Settle handlers (promise continuations) -/

/-- The success/failure handler of the `loadExtension` chain of `part_015`
(lines 649-676). Success: if the record was disposed meanwhile, release the
produced item; otherwise store the created extension and move to `Loaded`.
Failure: log, delete the id from the extension registry, mark `Disposed`. -/
def runExtSettle (st : MachineState) (tok : Nat)
    (outcome : Except String (Option ObjVal × Option Nat)) : MachineState :=
  match st.extRecs.get? tok with
  | none => st
  | some r =>
      match outcome with
      | Except.ok (item, d) =>
          if r.state = RecordState.disposed then
            { st with log := safeDispose st.log item }
          else
            { st with
                extRecs := st.extRecs.set tok
                  { r with state := RecordState.loaded,
                           value := some (Extension.create r.spec.id r.spec.point item d r.spec.config) } }
      | Except.error e =>
          { st with
              log := { st.log with errors := st.log.errors ++
                [ "Error occured while loading extension " ++ r.spec.id ++ ".", e ] },
              extReg := aerase st.extReg r.spec.id,
              extRecs := st.extRecs.set tok { r with state := RecordState.disposed } }

/-- The success/failure handler of the `loadPoint` chain of `part_015`
(lines 939-971): symmetric to `runExtSettle`, releasing or storing the
produced receiver wrapped in an `ExtensionPoint`. -/
def runPtSettle (st : MachineState) (tok : Nat)
    (outcome : Except String ObjVal) : MachineState :=
  match st.ptRecs.get? tok with
  | none => st
  | some r =>
      match outcome with
      | Except.ok rcv =>
          if r.state = RecordState.disposed then
            { st with log := safeDispose st.log (some rcv) }
          else
            { st with
                ptRecs := st.ptRecs.set tok
                  { r with state := RecordState.loaded,
                           value := some { id := r.spec.id, receiver := some rcv, disposed := false } } }
      | Except.error e =>
          { st with
              log := { st.log with errors := st.log.errors ++
                [ "Error occured while loading extension point " ++ r.spec.id ++ ".", e ] },
              ptReg := aerase st.ptReg r.spec.id,
              ptRecs := st.ptRecs.set tok { r with state := RecordState.disposed } }

/-- The `Promise.all` continuation of `loadMatch` (`part_015` lines
1046-1050, `src/src/registry.ts` lines 399-406): re-check that both
records ended in `Loaded` and only then call `point.add(extension)`.
A `Loaded` record with a null value would be the JS `TypeError`. -/
def runMatchSettle (st : MachineState) (ptok etok : Nat) : MachineState :=
  match st.ptRecs.get? ptok, st.extRecs.get? etok with
  | some pr, some er =>
      if pr.state = RecordState.loaded ∧ er.state = RecordState.loaded then
        match pr.value, er.value with
        | some pv, some ev => { st with log := ExtensionPoint.addOp pv ev st.log }
        | _, _ =>
            { st with log := { st.log with errors := st.log.errors ++ ["TypeError: value is null"] } }
      else st
  | _, _ => st

/-- Dispatch one pending continuation. -/
def applyTask (st : MachineState) : MTask → MachineState
  | MTask.extSettle tok outcome => runExtSettle st tok outcome
  | MTask.ptSettle tok outcome => runPtSettle st tok outcome
  | MTask.matchSettle ptok etok => runMatchSettle st ptok etok

/-! ## Load operations -/

/-- `loadExtension(record)` of `part_015` (lines 599-684). `Disposed` and
`Loaded` records return an already-settled promise; `Loading` returns the
pending one (no duplicate chain); only an `Unloaded` record starts the
chain: its settled outcome is fixed by the oracle and its continuation is
queued, and the record moves to `Loading`. -/
def loadExtensionCall (env : SysEnv) (st : MachineState) (tok : Nat) : MachineState :=
  match st.extRecs.get? tok with
  | none => st
  | some r =>
      match r.state with
      | RecordState.disposed => st
      | RecordState.loaded => st
      | RecordState.loading => st
      | RecordState.unloaded =>
          { st with
              extRecs := st.extRecs.set tok { r with state := RecordState.loading },
              pending := st.pending ++ [MTask.extSettle tok (extLoadOutcome env r.spec)] }

/-- `loadPoint(record)` of `part_015` (lines 903-979): symmetric. -/
def loadPointCall (env : SysEnv) (st : MachineState) (tok : Nat) : MachineState :=
  match st.ptRecs.get? tok with
  | none => st
  | some r =>
      match r.state with
      | RecordState.disposed => st
      | RecordState.loaded => st
      | RecordState.loading => st
      | RecordState.unloaded =>
          { st with
              ptRecs := st.ptRecs.set tok { r with state := RecordState.loading },
              pending := st.pending ++ [MTask.ptSettle tok (ptLoadOutcome env r.spec)] }

/-- `loadMatch(pRecord, eRecord)` of `part_015` (lines 1043-1051): trigger
both loads (idempotently) and queue the `Promise.all` continuation. -/
def loadMatchCall (env : SysEnv) (st : MachineState) (ptok etok : Nat) : MachineState :=
  let st1 := loadPointCall env st ptok
  let st2 := loadExtensionCall env st1 etok
  { st2 with pending := st2.pending ++ [MTask.matchSettle ptok etok] }

/-- `loadMatchingPoint(eRecord)` of `part_015` (lines 1034-1037): look up
the registered point targeted by the extension and match against it. -/
def loadMatchingPointCall (env : SysEnv) (st : MachineState) (etok : Nat) : MachineState :=
  match st.extRecs.get? etok with
  | none => st
  | some er =>
      match alookup st.ptReg er.spec.point with
      | some ptok => loadMatchCall env st ptok etok
      | none => st

/-- One iteration of the `loadMatchingExtensions` scan of `part_015`
(lines 1022-1027): match the extension bound to a registry entry if its
`spec.point` equals the point's id. -/
def matchExtEntry (env : SysEnv) (ptok : Nat) (pid : String)
    (acc : MachineState) (kv : String × Nat) : MachineState :=
  match acc.extRecs.get? kv.2 with
  | some er =>
      if er.spec.point = pid then loadMatchCall env acc ptok kv.2 else acc
  | none => acc

/-- `loadMatchingExtensions(pRecord)` of `part_015` (lines 1021-1028):
scan the extension registry in insertion order and match every extension
whose `spec.point` equals the point's id (the registry map is not mutated
during the pass, so iterating the snapshot is faithful; the point's
immutable `spec.id` is read once). -/
def loadMatchingExtensionsCall (env : SysEnv) (st : MachineState) (ptok : Nat) : MachineState :=
  match st.ptRecs.get? ptok with
  | none => st
  | some pr => st.extReg.foldl (matchExtEntry env ptok pr.spec.id) st

/-! ## Registration (synchronous API) -/

/-- `registerExtension(extension)` of `part_015` (lines 168-200): manual
registration of an already-constructed extension value. Throws on a
duplicate id; otherwise builds a compatible spec and a record that is
created directly in the `Loaded` state holding the value, then matches. -/
def registerExtension (env : SysEnv) (st : MachineState) (ext : Extension) :
    Except String MachineState :=
  if (alookup st.extReg ext.id).isSome then
    Except.error ("Extension " ++ ext.id ++ " is already registered.")
  else
    let spec : ExtensionSpec :=
      { id := ext.id, point := ext.point, main := "", factory := "",
        dataPath := "", config := none }
    let record : ExtensionRecord :=
      { state := RecordState.loaded, spec := spec, value := some ext }
    let tok := st.extRecs.length
    let st1 := { st with extRecs := st.extRecs ++ [record],
                         extReg := aset st.extReg ext.id tok }
    Except.ok (loadMatchingPointCall env st1 tok)

/-- `registerExtensionPoint(point)` of `part_015` (lines 218-247): manual
registration of an already-constructed extension point value, created
directly in the `Loaded` state. -/
def registerExtensionPoint (env : SysEnv) (st : MachineState) (pt : ExtensionPoint) :
    Except String MachineState :=
  if (alookup st.ptReg pt.id).isSome then
    Except.error ("Extension point " ++ pt.id ++ " is already registered.")
  else
    let spec : PointSpec := { id := pt.id, main := "", factory := "" }
    let record : PointRecord :=
      { state := RecordState.loaded, spec := spec, value := some pt }
    let tok := st.ptRecs.length
    let st1 := { st with ptRecs := st.ptRecs ++ [record],
                         ptReg := aset st.ptReg pt.id tok }
    Except.ok (loadMatchingExtensionsCall env st1 tok)

/-- `registerPlugin(name)` of `part_015` (lines 128-150): throws on a
duplicate name, else creates an `Unloaded` plugin record and calls
`loadPlugin` — which is an empty stub in `part_015` (line 364). -/
def registerPlugin (st : MachineState) (name : String) : Except String MachineState :=
  if (alookup st.plugReg name).isSome then
    Except.error ("Plugin " ++ name ++ " is already registered.")
  else
    let record : PluginRecord := { state := RecordState.unloaded, name := name }
    Except.ok { st with plugReg := aset st.plugReg name record }

/-- `createExtRecord(spec)` of `src/src/registry.ts` (lines 202-204),
also the record built by `registerExtensionSpec` in `part_014` (lines
1228-1234): a fresh `Unloaded` record with a null value and no promise. -/
def createExtRecord (spec : ExtensionSpec) : ExtensionRecord :=
  { state := RecordState.unloaded, spec := spec, value := none }

/-- `createPointRecord(spec)` of `src/src/registry.ts` (lines 194-196). -/
def createPointRecord (spec : PointSpec) : PointRecord :=
  { state := RecordState.unloaded, spec := spec, value := none }

/-- Spec-based extension registration: `registerExtension(spec)` of
`src/src/registry.ts` (lines 76-84); the record construction is that of
`createExtRecord` there and of `registerExtensionSpec` in `part_014`
(lines 1228-1237): an `Unloaded` record with a null value. Throws on a
duplicate id (`registry.ts`). -/
def registerExtensionSpec (env : SysEnv) (st : MachineState) (spec : ExtensionSpec) :
    Except String MachineState :=
  if (alookup st.extReg spec.id).isSome then
    Except.error ("Extension " ++ spec.id ++ " is already registered.")
  else
    let record : ExtensionRecord := createExtRecord spec
    let tok := st.extRecs.length
    let st1 := { st with extRecs := st.extRecs ++ [record],
                         extReg := aset st.extReg spec.id tok }
    Except.ok (loadMatchingPointCall env st1 tok)

/-- Spec-based point registration: `registerExtensionPoint(spec)` of
`src/src/registry.ts` (lines 55-63): an `Unloaded` record, then match all
registered extensions targeting it. -/
def registerPointSpec (env : SysEnv) (st : MachineState) (spec : PointSpec) :
    Except String MachineState :=
  if (alookup st.ptReg spec.id).isSome then
    Except.error ("Extension point " ++ spec.id ++ " is already registered.")
  else
    let record : PointRecord := createPointRecord spec
    let tok := st.ptRecs.length
    let st1 := { st with ptRecs := st.ptRecs ++ [record],
                         ptReg := aset st.ptReg spec.id tok }
    Except.ok (loadMatchingExtensionsCall env st1 tok)

/-! ## Disposal -/

/-- `disposeExtension(id)` of `part_015` (lines 690-720). The record is
deleted from the registry first. `Unloaded`/`Disposed`: nothing more.
`Loading`: mark `Disposed` only — cleanup is deferred to the settle
handler. `Loaded`: tell the matching loaded point to `remove(id)`, mark
`Disposed` and dispose the value (the `value` field is not nulled). -/
def disposeExtension (st : MachineState) (id : String) : MachineState :=
  match alookup st.extReg id with
  | none => st
  | some tok =>
      let st0 := { st with extReg := aerase st.extReg id }
      match st0.extRecs.get? tok with
      | none => st0
      | some r =>
          match r.state with
          | RecordState.disposed => st0
          | RecordState.unloaded => st0
          | RecordState.loading =>
              { st0 with extRecs := st0.extRecs.set tok { r with state := RecordState.disposed } }
          | RecordState.loaded =>
              let log1 :=
                match alookup st0.ptReg r.spec.point with
                | some ptok =>
                    match st0.ptRecs.get? ptok with
                    | some pr =>
                        match pr.value with
                        | some pv => ExtensionPoint.removeOp pv id st0.log
                        | none => st0.log
                    | none => st0.log
                | none => st0.log
              match r.value with
              | some ev =>
                  let out := Extension.disposeOp ev log1
                  { st0 with
                      extRecs := st0.extRecs.set tok
                        { r with state := RecordState.disposed, value := some out.1 },
                      log := out.2 }
              | none =>
                  { st0 with
                      extRecs := st0.extRecs.set tok { r with state := RecordState.disposed },
                      log := { log1 with errors := log1.errors ++ ["TypeError: value is null"] } }

/-- `disposePoint(id)` of `part_015` (lines 985-1011): same shape as
`disposeExtension` without the `remove` notification. -/
def disposePoint (st : MachineState) (id : String) : MachineState :=
  match alookup st.ptReg id with
  | none => st
  | some tok =>
      let st0 := { st with ptReg := aerase st.ptReg id }
      match st0.ptRecs.get? tok with
      | none => st0
      | some r =>
          match r.state with
          | RecordState.disposed => st0
          | RecordState.unloaded => st0
          | RecordState.loading =>
              { st0 with ptRecs := st0.ptRecs.set tok { r with state := RecordState.disposed } }
          | RecordState.loaded =>
              match r.value with
              | some pv =>
                  let out := ExtensionPoint.disposeOp pv st0.log
                  { st0 with
                      ptRecs := st0.ptRecs.set tok
                        { r with state := RecordState.disposed, value := some out.1 },
                      log := out.2 }
              | none =>
                  { st0 with
                      ptRecs := st0.ptRecs.set tok { r with state := RecordState.disposed },
                      log := { st0.log with errors := st0.log.errors ++ ["TypeError: value is null"] } }

/-! ## Events and runs

An `MEvent` is either a synchronous caller action or the firing of one
pending continuation. The cooperative scheduler may fire pending tasks in
any order compatible with promise resolution: a `matchSettle` (a
`Promise.all` continuation) can only fire once neither of its member load
chains is still pending. This is a superset of the JS microtask orders, so
universally quantified safety theorems carry over. -/

inductive MEvent where
  | regExt (ext : Extension)
  | regPoint (pt : ExtensionPoint)
  | regPlugin (name : String)
  | regExtSpec (spec : ExtensionSpec)
  | regPointSpec (spec : PointSpec)
  | dispExt (id : String)
  | dispPoint (id : String)
  | fire (i : Nat)

/-- Whether neither load chain of a match is still pending, i.e. both of
its promises have settled (records that were already `Loaded`, `Disposed`
or `Loading` at match time reuse settled or already-queued chains). -/
def noSettlePending (pending : List MTask) (ptok etok : Nat) : Bool :=
  pending.all fun t =>
    match t with
    | MTask.extSettle tok _ => tok ≠ etok
    | MTask.ptSettle tok _ => tok ≠ ptok
    | MTask.matchSettle _ _ => true

/-- Fire the pending task at index `i`, removing it from the queue; a
`matchSettle` whose member chains are still pending cannot fire yet. -/
def fireTask (st : MachineState) (i : Nat) : MachineState :=
  match st.pending.get? i with
  | none => st
  | some t =>
      let rest := st.pending.eraseIdx i
      match t with
      | MTask.matchSettle ptok etok =>
          if noSettlePending rest ptok etok then
            applyTask { st with pending := rest } (MTask.matchSettle ptok etok)
          else st
      | t' => applyTask { st with pending := rest } t'

/-- Apply one event. A registration that throws (duplicate id) leaves the
state unchanged: the error propagates to the caller before any mutation. -/
def applyEvent (env : SysEnv) (st : MachineState) : MEvent → MachineState
  | MEvent.regExt ext =>
      match registerExtension env st ext with
      | Except.ok st' => st'
      | Except.error _ => st
  | MEvent.regPoint pt =>
      match registerExtensionPoint env st pt with
      | Except.ok st' => st'
      | Except.error _ => st
  | MEvent.regPlugin name =>
      match registerPlugin st name with
      | Except.ok st' => st'
      | Except.error _ => st
  | MEvent.regExtSpec spec =>
      match registerExtensionSpec env st spec with
      | Except.ok st' => st'
      | Except.error _ => st
  | MEvent.regPointSpec spec =>
      match registerPointSpec env st spec with
      | Except.ok st' => st'
      | Except.error _ => st
  | MEvent.dispExt id => disposeExtension st id
  | MEvent.dispPoint id => disposePoint st id
  | MEvent.fire i => fireTask st i

/-- Run a sequence of events from a state. -/
def runEvents (env : SysEnv) (st : MachineState) (evs : List MEvent) : MachineState :=
  evs.foldl (applyEvent env) st

/-- Drain the pending queue in FIFO order (the JS microtask order when no
caller action intervenes). Settle tasks are queued before the
`matchSettle` that awaits them and tasks never queue new tasks, so the
FIFO order respects promise resolution. -/
def drainAll (st : MachineState) : MachineState :=
  st.pending.foldl applyTask { st with pending := [] }

/-! ## The map-based `ExtensionPoint` class of `part_017`

`part_017` wraps the receiver *function* in an `ExtensionPoint` keeping a
per-extension map from extension id to whatever the receiver returned (a
per-extension disposable handle). Its `add` guards against disposal and a
mismatched point id; its `remove` deletes the entry and disposes the
stored handle with the non-catching `safeDispose` of `part_017` — it
never invokes the receiver. The receiver function is modelled as a pure
function from the extension argument to the returned handle, and receiver
invocations are recorded. -/

/-- The `IExtension` argument as used by `part_017.ExtensionPoint`:
only `id` and `point` are read. -/
structure ExtArg where
  id : String
  point : String
deriving DecidableEq, Repr

/-- The `part_017` `ExtensionPoint` instance state: `_spec.id`,
`_disposed` and `_map` (the `_disposable` plays no role in `add`/`remove`
and is dropped). -/
structure ExtensionPoint17 where
  id : String
  disposed : Bool
  map : List (String × ObjVal)
deriving DecidableEq, Repr

/-- The result of one `add`/`remove` call on a `part_017` point: the
updated instance, the receiver invocations made (their arguments), the
handles on which `dispose()` was invoked, and the error thrown by the
call, if any (`none` means a normal return). -/
structure OpResult where
  pt : ExtensionPoint17
  rcvCalls : List ExtArg
  disposedTags : List Nat
  thrown : Option String
deriving DecidableEq, Repr

/-- `ExtensionPoint.add` of `part_017` (lines 306-319): throw if disposed;
throw on a point-id mismatch; return silently if the extension id is
already in the map; otherwise invoke the receiver function with the
extension and store its return value under the extension id. -/
def ep17add (p : ExtensionPoint17) (rcv : ExtArg → ObjVal) (e : ExtArg) : OpResult :=
  if p.disposed then
    { pt := p, rcvCalls := [], disposedTags := [],
      thrown := some "Extension point is disposed." }
  else if p.id ≠ e.point then
    { pt := p, rcvCalls := [], disposedTags := [],
      thrown := some ("Extension point mismatch: " ++ p.id ++ " != " ++ e.point) }
  else if (alookup p.map e.id).isSome then
    { pt := p, rcvCalls := [], disposedTags := [], thrown := none }
  else
    { pt := { p with map := aset p.map e.id (rcv e) },
      rcvCalls := [e], disposedTags := [], thrown := none }

/-- `ExtensionPoint.remove` of `part_017` (lines 333-343): throw if
disposed; return silently if the id is absent; otherwise delete the entry
and dispose the stored handle via the non-catching `safeDispose` (whose
error, if any, propagates out of `remove` after the deletion). The
receiver is not involved. -/
def ep17remove (p : ExtensionPoint17) (id : String) : OpResult :=
  if p.disposed then
    { pt := p, rcvCalls := [], disposedTags := [],
      thrown := some "Extension point is disposed." }
  else
    match alookup p.map id with
    | none => { pt := p, rcvCalls := [], disposedTags := [], thrown := none }
    | some obj =>
        let p' := { p with map := aerase p.map id }
        match safeDispose17 (some obj) with
        | Except.ok tags =>
            { pt := p', rcvCalls := [], disposedTags := tags, thrown := none }
        | Except.error e =>
            { pt := p', rcvCalls := [], disposedTags := [obj.tag], thrown := some e }

/-! ## List-store helper lemmas -/

theorem lget_set_self {α : Type} (l : List α) (i : Nat) (a : α) (h : i < l.length) :
    (l.set i a).get? i = some a := by
  rw [List.get?_eq_getElem?]
  exact List.getElem?_set_self h

theorem lget_set_ne {α : Type} (l : List α) (i j : Nat) (a : α) (h : i ≠ j) :
    (l.set i a).get? j = l.get? j := by
  rw [List.get?_eq_getElem?, List.get?_eq_getElem?, List.getElem?_set_ne h]

theorem lget_append {α : Type} (l l2 : List α) (n : Nat) (h : n < l.length) :
    (l ++ l2).get? n = l.get? n := by
  rw [List.get?_eq_getElem?, List.get?_eq_getElem?, List.getElem?_append_left h]

theorem lget_concat_self {α : Type} (l : List α) (a : α) :
    (l ++ [a]).get? l.length = some a := by
  rw [List.get?_eq_getElem?, List.getElem?_concat_length]

theorem lget_lt {α : Type} {l : List α} {i : Nat} {a : α} (h : l.get? i = some a) :
    i < l.length := by
  rw [List.get?_eq_getElem?] at h
  obtain ⟨h1, _⟩ := List.getElem?_eq_some_iff.mp h
  exact h1

/-! ## Frame lemmas: which parts of the state each operation leaves alone -/

theorem loadExtensionCall_log (env : SysEnv) (st : MachineState) (tok : Nat) :
    (loadExtensionCall env st tok).log = st.log := by
  unfold loadExtensionCall
  repeat' split
  all_goals rfl

theorem loadExtensionCall_extReg (env : SysEnv) (st : MachineState) (tok : Nat) :
    (loadExtensionCall env st tok).extReg = st.extReg := by
  unfold loadExtensionCall
  repeat' split
  all_goals rfl

theorem loadExtensionCall_ptReg (env : SysEnv) (st : MachineState) (tok : Nat) :
    (loadExtensionCall env st tok).ptReg = st.ptReg := by
  unfold loadExtensionCall
  repeat' split
  all_goals rfl

theorem loadExtensionCall_plugReg (env : SysEnv) (st : MachineState) (tok : Nat) :
    (loadExtensionCall env st tok).plugReg = st.plugReg := by
  unfold loadExtensionCall
  repeat' split
  all_goals rfl

theorem loadExtensionCall_ptRecs (env : SysEnv) (st : MachineState) (tok : Nat) :
    (loadExtensionCall env st tok).ptRecs = st.ptRecs := by
  unfold loadExtensionCall
  repeat' split
  all_goals rfl

theorem loadPointCall_log (env : SysEnv) (st : MachineState) (tok : Nat) :
    (loadPointCall env st tok).log = st.log := by
  unfold loadPointCall
  repeat' split
  all_goals rfl

theorem loadPointCall_extReg (env : SysEnv) (st : MachineState) (tok : Nat) :
    (loadPointCall env st tok).extReg = st.extReg := by
  unfold loadPointCall
  repeat' split
  all_goals rfl

theorem loadPointCall_ptReg (env : SysEnv) (st : MachineState) (tok : Nat) :
    (loadPointCall env st tok).ptReg = st.ptReg := by
  unfold loadPointCall
  repeat' split
  all_goals rfl

theorem loadPointCall_plugReg (env : SysEnv) (st : MachineState) (tok : Nat) :
    (loadPointCall env st tok).plugReg = st.plugReg := by
  unfold loadPointCall
  repeat' split
  all_goals rfl

theorem loadPointCall_extRecs (env : SysEnv) (st : MachineState) (tok : Nat) :
    (loadPointCall env st tok).extRecs = st.extRecs := by
  unfold loadPointCall
  repeat' split
  all_goals rfl

theorem loadMatchCall_log (env : SysEnv) (st : MachineState) (ptok etok : Nat) :
    (loadMatchCall env st ptok etok).log = st.log := by
  unfold loadMatchCall
  rw [loadExtensionCall_log, loadPointCall_log]

theorem loadMatchCall_extReg (env : SysEnv) (st : MachineState) (ptok etok : Nat) :
    (loadMatchCall env st ptok etok).extReg = st.extReg := by
  unfold loadMatchCall
  rw [loadExtensionCall_extReg, loadPointCall_extReg]

theorem loadMatchCall_ptReg (env : SysEnv) (st : MachineState) (ptok etok : Nat) :
    (loadMatchCall env st ptok etok).ptReg = st.ptReg := by
  unfold loadMatchCall
  rw [loadExtensionCall_ptReg, loadPointCall_ptReg]

theorem loadMatchCall_plugReg (env : SysEnv) (st : MachineState) (ptok etok : Nat) :
    (loadMatchCall env st ptok etok).plugReg = st.plugReg := by
  unfold loadMatchCall
  rw [loadExtensionCall_plugReg, loadPointCall_plugReg]

theorem loadMatchingPointCall_log (env : SysEnv) (st : MachineState) (etok : Nat) :
    (loadMatchingPointCall env st etok).log = st.log := by
  unfold loadMatchingPointCall
  repeat' split
  all_goals first
    | rfl
    | rw [loadMatchCall_log]

theorem loadMatchingPointCall_extReg (env : SysEnv) (st : MachineState) (etok : Nat) :
    (loadMatchingPointCall env st etok).extReg = st.extReg := by
  unfold loadMatchingPointCall
  repeat' split
  all_goals first
    | rfl
    | rw [loadMatchCall_extReg]

theorem loadMatchingPointCall_ptReg (env : SysEnv) (st : MachineState) (etok : Nat) :
    (loadMatchingPointCall env st etok).ptReg = st.ptReg := by
  unfold loadMatchingPointCall
  repeat' split
  all_goals first
    | rfl
    | rw [loadMatchCall_ptReg]

theorem loadMatchingPointCall_plugReg (env : SysEnv) (st : MachineState) (etok : Nat) :
    (loadMatchingPointCall env st etok).plugReg = st.plugReg := by
  unfold loadMatchingPointCall
  repeat' split
  all_goals first
    | rfl
    | rw [loadMatchCall_plugReg]

theorem matchExtEntry_log (env : SysEnv) (ptok : Nat) (pid : String)
    (acc : MachineState) (kv : String × Nat) :
    (matchExtEntry env ptok pid acc kv).log = acc.log := by
  unfold matchExtEntry
  repeat' split
  all_goals first
    | rfl
    | rw [loadMatchCall_log]

theorem matchExtEntry_extReg (env : SysEnv) (ptok : Nat) (pid : String)
    (acc : MachineState) (kv : String × Nat) :
    (matchExtEntry env ptok pid acc kv).extReg = acc.extReg := by
  unfold matchExtEntry
  repeat' split
  all_goals first
    | rfl
    | rw [loadMatchCall_extReg]

theorem matchExtEntry_ptReg (env : SysEnv) (ptok : Nat) (pid : String)
    (acc : MachineState) (kv : String × Nat) :
    (matchExtEntry env ptok pid acc kv).ptReg = acc.ptReg := by
  unfold matchExtEntry
  repeat' split
  all_goals first
    | rfl
    | rw [loadMatchCall_ptReg]

theorem matchExtEntry_plugReg (env : SysEnv) (ptok : Nat) (pid : String)
    (acc : MachineState) (kv : String × Nat) :
    (matchExtEntry env ptok pid acc kv).plugReg = acc.plugReg := by
  unfold matchExtEntry
  repeat' split
  all_goals first
    | rfl
    | rw [loadMatchCall_plugReg]

theorem foldl_matchExtEntry_log (env : SysEnv) (ptok : Nat) (pid : String)
    (l : List (String × Nat)) :
    ∀ st : MachineState, (l.foldl (matchExtEntry env ptok pid) st).log = st.log := by
  induction l with
  | nil => intro st; rfl
  | cons hd tl ih =>
      intro st
      rw [List.foldl_cons, ih, matchExtEntry_log]

theorem foldl_matchExtEntry_extReg (env : SysEnv) (ptok : Nat) (pid : String)
    (l : List (String × Nat)) :
    ∀ st : MachineState, (l.foldl (matchExtEntry env ptok pid) st).extReg = st.extReg := by
  induction l with
  | nil => intro st; rfl
  | cons hd tl ih =>
      intro st
      rw [List.foldl_cons, ih, matchExtEntry_extReg]

theorem foldl_matchExtEntry_ptReg (env : SysEnv) (ptok : Nat) (pid : String)
    (l : List (String × Nat)) :
    ∀ st : MachineState, (l.foldl (matchExtEntry env ptok pid) st).ptReg = st.ptReg := by
  induction l with
  | nil => intro st; rfl
  | cons hd tl ih =>
      intro st
      rw [List.foldl_cons, ih, matchExtEntry_ptReg]

theorem foldl_matchExtEntry_plugReg (env : SysEnv) (ptok : Nat) (pid : String)
    (l : List (String × Nat)) :
    ∀ st : MachineState, (l.foldl (matchExtEntry env ptok pid) st).plugReg = st.plugReg := by
  induction l with
  | nil => intro st; rfl
  | cons hd tl ih =>
      intro st
      rw [List.foldl_cons, ih, matchExtEntry_plugReg]

theorem loadMatchingExtensionsCall_log (env : SysEnv) (st : MachineState) (ptok : Nat) :
    (loadMatchingExtensionsCall env st ptok).log = st.log := by
  unfold loadMatchingExtensionsCall
  split
  · rfl
  · rw [foldl_matchExtEntry_log]

theorem loadMatchingExtensionsCall_extReg (env : SysEnv) (st : MachineState) (ptok : Nat) :
    (loadMatchingExtensionsCall env st ptok).extReg = st.extReg := by
  unfold loadMatchingExtensionsCall
  split
  · rfl
  · rw [foldl_matchExtEntry_extReg]

theorem loadMatchingExtensionsCall_ptReg (env : SysEnv) (st : MachineState) (ptok : Nat) :
    (loadMatchingExtensionsCall env st ptok).ptReg = st.ptReg := by
  unfold loadMatchingExtensionsCall
  split
  · rfl
  · rw [foldl_matchExtEntry_ptReg]

theorem loadMatchingExtensionsCall_plugReg (env : SysEnv) (st : MachineState) (ptok : Nat) :
    (loadMatchingExtensionsCall env st ptok).plugReg = st.plugReg := by
  unfold loadMatchingExtensionsCall
  split
  · rfl
  · rw [foldl_matchExtEntry_plugReg]

/-! ## Log-projection lemmas -/

theorem safeDispose_ptAddCalls (log : RunLog) (o : Option ObjVal) :
    (safeDispose log o).ptAddCalls = log.ptAddCalls := by
  unfold safeDispose
  repeat' split
  all_goals rfl

theorem safeDispose_recvAdds (log : RunLog) (o : Option ObjVal) :
    (safeDispose log o).recvAdds = log.recvAdds := by
  unfold safeDispose
  repeat' split
  all_goals rfl

theorem safeDispose_recvRemoves (log : RunLog) (o : Option ObjVal) :
    (safeDispose log o).recvRemoves = log.recvRemoves := by
  unfold safeDispose
  repeat' split
  all_goals rfl

theorem safeDispose_disposedTags (log : RunLog) (o : Option ObjVal) :
    (safeDispose log o).disposedTags = log.disposedTags ++
      (match o with
       | some v => cond v.disposable [v.tag] []
       | none => []) := by
  match o with
  | none => simp [safeDispose]
  | some v =>
      cases hd : v.disposable <;> cases ht : v.disposeThrows <;>
        simp [safeDispose, hd, ht]

theorem safeDispose_errors (log : RunLog) (o : Option ObjVal) :
    (safeDispose log o).errors = log.errors ++
      (match o with
       | some v => cond (v.disposable && v.disposeThrows) ["dispose error"] []
       | none => []) := by
  match o with
  | none => simp [safeDispose]
  | some v =>
      cases hd : v.disposable <;> cases ht : v.disposeThrows <;>
        simp [safeDispose, hd, ht]

theorem disposeOp_ptAddCalls (e : Extension) (log : RunLog) :
    (Extension.disposeOp e log).2.ptAddCalls = log.ptAddCalls := by
  unfold Extension.disposeOp
  split
  · rfl
  · rw [safeDispose_ptAddCalls]

theorem disposeOp_recvAdds (e : Extension) (log : RunLog) :
    (Extension.disposeOp e log).2.recvAdds = log.recvAdds := by
  unfold Extension.disposeOp
  split
  · rfl
  · rw [safeDispose_recvAdds]

theorem ptDisposeOp_ptAddCalls (p : ExtensionPoint) (log : RunLog) :
    (ExtensionPoint.disposeOp p log).2.ptAddCalls = log.ptAddCalls := by
  unfold ExtensionPoint.disposeOp
  split
  · rfl
  · rw [safeDispose_ptAddCalls]

theorem ptDisposeOp_recvAdds (p : ExtensionPoint) (log : RunLog) :
    (ExtensionPoint.disposeOp p log).2.recvAdds = log.recvAdds := by
  unfold ExtensionPoint.disposeOp
  split
  · rfl
  · rw [safeDispose_recvAdds]

theorem removeOp_ptAddCalls (p : ExtensionPoint) (id : String) (log : RunLog) :
    (ExtensionPoint.removeOp p id log).ptAddCalls = log.ptAddCalls := by
  unfold ExtensionPoint.removeOp
  split
  all_goals rfl

theorem removeOp_recvAdds (p : ExtensionPoint) (id : String) (log : RunLog) :
    (ExtensionPoint.removeOp p id log).recvAdds = log.recvAdds := by
  unfold ExtensionPoint.removeOp
  split
  all_goals rfl

/-! ## Frame lemmas: settle handlers and disposal -/

theorem runExtSettle_ptRecs (st : MachineState) (tok : Nat)
    (outcome : Except String (Option ObjVal × Option Nat)) :
    (runExtSettle st tok outcome).ptRecs = st.ptRecs := by
  unfold runExtSettle
  repeat' split
  all_goals rfl

theorem runExtSettle_ptReg (st : MachineState) (tok : Nat)
    (outcome : Except String (Option ObjVal × Option Nat)) :
    (runExtSettle st tok outcome).ptReg = st.ptReg := by
  unfold runExtSettle
  repeat' split
  all_goals rfl

theorem runExtSettle_plugReg (st : MachineState) (tok : Nat)
    (outcome : Except String (Option ObjVal × Option Nat)) :
    (runExtSettle st tok outcome).plugReg = st.plugReg := by
  unfold runExtSettle
  repeat' split
  all_goals rfl

theorem runExtSettle_pending (st : MachineState) (tok : Nat)
    (outcome : Except String (Option ObjVal × Option Nat)) :
    (runExtSettle st tok outcome).pending = st.pending := by
  unfold runExtSettle
  repeat' split
  all_goals rfl

theorem runExtSettle_ptAddCalls (st : MachineState) (tok : Nat)
    (outcome : Except String (Option ObjVal × Option Nat)) :
    (runExtSettle st tok outcome).log.ptAddCalls = st.log.ptAddCalls := by
  unfold runExtSettle
  repeat' split
  all_goals first
    | rfl
    | rw [safeDispose_ptAddCalls]

theorem runExtSettle_recvAdds (st : MachineState) (tok : Nat)
    (outcome : Except String (Option ObjVal × Option Nat)) :
    (runExtSettle st tok outcome).log.recvAdds = st.log.recvAdds := by
  unfold runExtSettle
  repeat' split
  all_goals first
    | rfl
    | rw [safeDispose_recvAdds]

theorem runPtSettle_extRecs (st : MachineState) (tok : Nat)
    (outcome : Except String ObjVal) :
    (runPtSettle st tok outcome).extRecs = st.extRecs := by
  unfold runPtSettle
  repeat' split
  all_goals rfl

theorem runPtSettle_extReg (st : MachineState) (tok : Nat)
    (outcome : Except String ObjVal) :
    (runPtSettle st tok outcome).extReg = st.extReg := by
  unfold runPtSettle
  repeat' split
  all_goals rfl

theorem runPtSettle_plugReg (st : MachineState) (tok : Nat)
    (outcome : Except String ObjVal) :
    (runPtSettle st tok outcome).plugReg = st.plugReg := by
  unfold runPtSettle
  repeat' split
  all_goals rfl

theorem runPtSettle_pending (st : MachineState) (tok : Nat)
    (outcome : Except String ObjVal) :
    (runPtSettle st tok outcome).pending = st.pending := by
  unfold runPtSettle
  repeat' split
  all_goals rfl

theorem runPtSettle_ptAddCalls (st : MachineState) (tok : Nat)
    (outcome : Except String ObjVal) :
    (runPtSettle st tok outcome).log.ptAddCalls = st.log.ptAddCalls := by
  unfold runPtSettle
  repeat' split
  all_goals first
    | rfl
    | rw [safeDispose_ptAddCalls]

theorem runPtSettle_recvAdds (st : MachineState) (tok : Nat)
    (outcome : Except String ObjVal) :
    (runPtSettle st tok outcome).log.recvAdds = st.log.recvAdds := by
  unfold runPtSettle
  repeat' split
  all_goals first
    | rfl
    | rw [safeDispose_recvAdds]

theorem runMatchSettle_extRecs (st : MachineState) (ptok etok : Nat) :
    (runMatchSettle st ptok etok).extRecs = st.extRecs := by
  unfold runMatchSettle
  repeat' split
  all_goals rfl

theorem runMatchSettle_ptRecs (st : MachineState) (ptok etok : Nat) :
    (runMatchSettle st ptok etok).ptRecs = st.ptRecs := by
  unfold runMatchSettle
  repeat' split
  all_goals rfl

theorem runMatchSettle_extReg (st : MachineState) (ptok etok : Nat) :
    (runMatchSettle st ptok etok).extReg = st.extReg := by
  unfold runMatchSettle
  repeat' split
  all_goals rfl

theorem runMatchSettle_ptReg (st : MachineState) (ptok etok : Nat) :
    (runMatchSettle st ptok etok).ptReg = st.ptReg := by
  unfold runMatchSettle
  repeat' split
  all_goals rfl

theorem runMatchSettle_plugReg (st : MachineState) (ptok etok : Nat) :
    (runMatchSettle st ptok etok).plugReg = st.plugReg := by
  unfold runMatchSettle
  repeat' split
  all_goals rfl

theorem runMatchSettle_pending (st : MachineState) (ptok etok : Nat) :
    (runMatchSettle st ptok etok).pending = st.pending := by
  unfold runMatchSettle
  repeat' split
  all_goals rfl

theorem disposeExtension_ptRecs (st : MachineState) (id : String) :
    (disposeExtension st id).ptRecs = st.ptRecs := by
  simp only [disposeExtension]
  repeat' split
  all_goals rfl

theorem disposeExtension_ptReg (st : MachineState) (id : String) :
    (disposeExtension st id).ptReg = st.ptReg := by
  simp only [disposeExtension]
  repeat' split
  all_goals rfl

theorem disposeExtension_plugReg (st : MachineState) (id : String) :
    (disposeExtension st id).plugReg = st.plugReg := by
  simp only [disposeExtension]
  repeat' split
  all_goals rfl

theorem disposeExtension_pending (st : MachineState) (id : String) :
    (disposeExtension st id).pending = st.pending := by
  simp only [disposeExtension]
  repeat' split
  all_goals rfl

theorem disposeExtension_ptAddCalls (st : MachineState) (id : String) :
    (disposeExtension st id).log.ptAddCalls = st.log.ptAddCalls := by
  simp only [disposeExtension]
  repeat' split
  all_goals first
    | rfl
    | simp only [disposeOp_ptAddCalls, removeOp_ptAddCalls]

theorem disposeExtension_recvAdds (st : MachineState) (id : String) :
    (disposeExtension st id).log.recvAdds = st.log.recvAdds := by
  simp only [disposeExtension]
  repeat' split
  all_goals first
    | rfl
    | simp only [disposeOp_recvAdds, removeOp_recvAdds]

theorem disposePoint_extRecs (st : MachineState) (id : String) :
    (disposePoint st id).extRecs = st.extRecs := by
  simp only [disposePoint]
  repeat' split
  all_goals rfl

theorem disposePoint_extReg (st : MachineState) (id : String) :
    (disposePoint st id).extReg = st.extReg := by
  simp only [disposePoint]
  repeat' split
  all_goals rfl

theorem disposePoint_plugReg (st : MachineState) (id : String) :
    (disposePoint st id).plugReg = st.plugReg := by
  simp only [disposePoint]
  repeat' split
  all_goals rfl

theorem disposePoint_pending (st : MachineState) (id : String) :
    (disposePoint st id).pending = st.pending := by
  simp only [disposePoint]
  repeat' split
  all_goals rfl

theorem disposePoint_ptAddCalls (st : MachineState) (id : String) :
    (disposePoint st id).log.ptAddCalls = st.log.ptAddCalls := by
  simp only [disposePoint]
  repeat' split
  all_goals first
    | rfl
    | simp only [ptDisposeOp_ptAddCalls]

theorem disposePoint_recvAdds (st : MachineState) (id : String) :
    (disposePoint st id).log.recvAdds = st.log.recvAdds := by
  simp only [disposePoint]
  repeat' split
  all_goals first
    | rfl
    | simp only [ptDisposeOp_recvAdds]

/-! ## Registration frame lemmas -/

theorem registerExtension_log (env : SysEnv) (st : MachineState) (ext : Extension)
    (st' : MachineState) (h : registerExtension env st ext = Except.ok st') :
    st'.log = st.log := by
  unfold registerExtension at h
  split at h
  · exact absurd h (by simp)
  · injection h with h'
    rw [← h', loadMatchingPointCall_log]

theorem registerExtensionPoint_log (env : SysEnv) (st : MachineState) (pt : ExtensionPoint)
    (st' : MachineState) (h : registerExtensionPoint env st pt = Except.ok st') :
    st'.log = st.log := by
  unfold registerExtensionPoint at h
  split at h
  · exact absurd h (by simp)
  · injection h with h'
    rw [← h', loadMatchingExtensionsCall_log]

theorem registerPlugin_log (st : MachineState) (name : String)
    (st' : MachineState) (h : registerPlugin st name = Except.ok st') :
    st'.log = st.log := by
  unfold registerPlugin at h
  split at h
  · exact absurd h (by simp)
  · injection h with h'
    rw [← h']

theorem registerExtensionSpec_log (env : SysEnv) (st : MachineState) (spec : ExtensionSpec)
    (st' : MachineState) (h : registerExtensionSpec env st spec = Except.ok st') :
    st'.log = st.log := by
  unfold registerExtensionSpec at h
  split at h
  · exact absurd h (by simp)
  · injection h with h'
    rw [← h', loadMatchingPointCall_log]

theorem registerPointSpec_log (env : SysEnv) (st : MachineState) (spec : PointSpec)
    (st' : MachineState) (h : registerPointSpec env st spec = Except.ok st') :
    st'.log = st.log := by
  unfold registerPointSpec at h
  split at h
  · exact absurd h (by simp)
  · injection h with h'
    rw [← h', loadMatchingExtensionsCall_log]

/-- If firing a match continuation changed the `point.add` call log, both
records existed and were in the `Loaded` state at that moment. -/
theorem runMatchSettle_grow (st : MachineState) (ptok etok : Nat)
    (h : (runMatchSettle st ptok etok).log.ptAddCalls ≠ st.log.ptAddCalls) :
    ∃ pr er, st.ptRecs.get? ptok = some pr ∧ st.extRecs.get? etok = some er ∧
      pr.state = RecordState.loaded ∧ er.state = RecordState.loaded := by
  unfold runMatchSettle at h
  split at h
  · rename_i pr er hpr her
    split at h
    · rename_i hguard
      exact ⟨pr, er, hpr, her, hguard.1, hguard.2⟩
    · exact absurd rfl h
  · exact absurd rfl h

/-- C1: for every matched pair, `loadMatch` calls `point.add(extension)`
only from the `Promise.all` continuation — which can fire only once both
load chains have settled — and only if, at that moment, both records are
in the `Loaded` state; firing the continuation when either record is in
any other state abandons the match without calling `add` (and the
continuation is consumed, so `add` is never called for that match). -/
theorem loadMatch_add_requires_both_loaded :
    (∀ (env : SysEnv) (st : MachineState) (ev : MEvent),
      (applyEvent env st ev).log.ptAddCalls ≠ st.log.ptAddCalls →
      ∃ i ptok etok pr er,
        ev = MEvent.fire i ∧
        st.pending.get? i = some (MTask.matchSettle ptok etok) ∧
        noSettlePending (st.pending.eraseIdx i) ptok etok = true ∧
        st.ptRecs.get? ptok = some pr ∧ st.extRecs.get? etok = some er ∧
        pr.state = RecordState.loaded ∧ er.state = RecordState.loaded) ∧
    (∀ (st : MachineState) (ptok etok : Nat) (pr : PointRecord) (er : ExtensionRecord),
      st.ptRecs.get? ptok = some pr → st.extRecs.get? etok = some er →
      (pr.state ≠ RecordState.loaded ∨ er.state ≠ RecordState.loaded) →
      runMatchSettle st ptok etok = st) := by
  constructor
  · intro env st ev h
    cases ev with
    | regExt ext =>
        exfalso
        apply h
        simp only [applyEvent]
        cases hr : registerExtension env st ext with
        | ok st' => rw [registerExtension_log env st ext st' hr]
        | error e => rfl
    | regPoint pt =>
        exfalso
        apply h
        simp only [applyEvent]
        cases hr : registerExtensionPoint env st pt with
        | ok st' => rw [registerExtensionPoint_log env st pt st' hr]
        | error e => rfl
    | regPlugin name =>
        exfalso
        apply h
        simp only [applyEvent]
        cases hr : registerPlugin st name with
        | ok st' => rw [registerPlugin_log st name st' hr]
        | error e => rfl
    | regExtSpec spec =>
        exfalso
        apply h
        simp only [applyEvent]
        cases hr : registerExtensionSpec env st spec with
        | ok st' => rw [registerExtensionSpec_log env st spec st' hr]
        | error e => rfl
    | regPointSpec spec =>
        exfalso
        apply h
        simp only [applyEvent]
        cases hr : registerPointSpec env st spec with
        | ok st' => rw [registerPointSpec_log env st spec st' hr]
        | error e => rfl
    | dispExt id => exact absurd (disposeExtension_ptAddCalls st id) h
    | dispPoint id => exact absurd (disposePoint_ptAddCalls st id) h
    | fire i =>
        simp only [applyEvent, fireTask] at h
        cases hp : st.pending.get? i with
        | none =>
            rw [hp] at h
            exact absurd rfl h
        | some t =>
            rw [hp] at h
            cases t with
            | extSettle tok oc =>
                simp only [applyTask] at h
                exact absurd (runExtSettle_ptAddCalls _ tok oc) h
            | ptSettle tok oc =>
                simp only [applyTask] at h
                exact absurd (runPtSettle_ptAddCalls _ tok oc) h
            | matchSettle ptok etok =>
                simp only [applyTask] at h
                by_cases hready :
                    noSettlePending (st.pending.eraseIdx i) ptok etok = true
                · rw [if_pos hready] at h
                  obtain ⟨pr, er, hpr, her, h1, h2⟩ := runMatchSettle_grow _ ptok etok h
                  exact ⟨i, ptok, etok, pr, er, rfl, hp, hready, hpr, her, h1, h2⟩
                · rw [if_neg hready] at h
                  exact absurd rfl h
  · intro st ptok etok pr er hpr her hng
    unfold runMatchSettle
    rw [hpr, her]
    have hnot : ¬(pr.state = RecordState.loaded ∧ er.state = RecordState.loaded) := by
      intro hab
      cases hng with
      | inl hx => exact hx hab.1
      | inr hx => exact hx hab.2
    simp [hnot]

/-! ## A disposed extension record is never touched again -/

theorem extRecord_eta_disposed (r : ExtensionRecord) (h : r.state = RecordState.disposed) :
    { r with state := RecordState.disposed } = r := by
  obtain ⟨s, sp, v⟩ := r
  simp only at h
  rw [h]

theorem loadExtensionCall_disposedFix (env : SysEnv) (st : MachineState) (t2 tok : Nat)
    (r : ExtensionRecord) (h : st.extRecs.get? tok = some r)
    (hd : r.state = RecordState.disposed) :
    (loadExtensionCall env st t2).extRecs.get? tok = some r := by
  unfold loadExtensionCall
  split
  · exact h
  · rename_i r2 heq
    split
    · exact h
    · exact h
    · exact h
    · rename_i hst
      by_cases ht : t2 = tok
      · subst ht
        rw [heq] at h
        injection h with h'
        rw [h'] at hst
        rw [hd] at hst
        exact absurd hst (by simp)
      · simp only [lget_set_ne _ _ _ _ ht]
        exact h

theorem loadMatchCall_disposedFix (env : SysEnv) (st : MachineState) (ptok etok tok : Nat)
    (r : ExtensionRecord) (h : st.extRecs.get? tok = some r)
    (hd : r.state = RecordState.disposed) :
    (loadMatchCall env st ptok etok).extRecs.get? tok = some r := by
  unfold loadMatchCall
  simp only
  apply loadExtensionCall_disposedFix
  · rw [loadPointCall_extRecs]
    exact h
  · exact hd

theorem matchExtEntry_disposedFix (env : SysEnv) (ptok : Nat) (pid : String)
    (acc : MachineState) (kv : String × Nat) (tok : Nat)
    (r : ExtensionRecord) (h : acc.extRecs.get? tok = some r)
    (hd : r.state = RecordState.disposed) :
    (matchExtEntry env ptok pid acc kv).extRecs.get? tok = some r := by
  unfold matchExtEntry
  split
  · split
    · exact loadMatchCall_disposedFix env acc ptok kv.2 tok r h hd
    · exact h
  · exact h

theorem foldl_matchExtEntry_disposedFix (env : SysEnv) (ptok : Nat) (pid : String)
    (l : List (String × Nat)) :
    ∀ (st : MachineState) (tok : Nat) (r : ExtensionRecord),
      st.extRecs.get? tok = some r → r.state = RecordState.disposed →
      (l.foldl (matchExtEntry env ptok pid) st).extRecs.get? tok = some r := by
  induction l with
  | nil => intro st tok r h _; exact h
  | cons hd tl ih =>
      intro st tok r h hdis
      rw [List.foldl_cons]
      exact ih _ tok r (matchExtEntry_disposedFix env ptok pid st hd tok r h hdis) hdis

theorem loadMatchingPointCall_disposedFix (env : SysEnv) (st : MachineState) (etok tok : Nat)
    (r : ExtensionRecord) (h : st.extRecs.get? tok = some r)
    (hd : r.state = RecordState.disposed) :
    (loadMatchingPointCall env st etok).extRecs.get? tok = some r := by
  unfold loadMatchingPointCall
  split
  · exact h
  · split
    · exact loadMatchCall_disposedFix env st _ etok tok r h hd
    · exact h

theorem loadMatchingExtensionsCall_disposedFix (env : SysEnv) (st : MachineState) (ptok tok : Nat)
    (r : ExtensionRecord) (h : st.extRecs.get? tok = some r)
    (hd : r.state = RecordState.disposed) :
    (loadMatchingExtensionsCall env st ptok).extRecs.get? tok = some r := by
  unfold loadMatchingExtensionsCall
  split
  · exact h
  · exact foldl_matchExtEntry_disposedFix env ptok _ st.extReg st tok r h hd

theorem registerExtension_disposedFix (env : SysEnv) (st : MachineState) (ext : Extension)
    (st' : MachineState) (hr : registerExtension env st ext = Except.ok st')
    (tok : Nat) (r : ExtensionRecord) (h : st.extRecs.get? tok = some r)
    (hd : r.state = RecordState.disposed) :
    st'.extRecs.get? tok = some r := by
  unfold registerExtension at hr
  split at hr
  · exact absurd hr (by simp)
  · injection hr with hr'
    rw [← hr']
    apply loadMatchingPointCall_disposedFix
    · simp only
      rw [lget_append _ _ _ (lget_lt h)]
      exact h
    · exact hd

theorem registerExtensionSpec_disposedFix (env : SysEnv) (st : MachineState)
    (spec : ExtensionSpec) (st' : MachineState)
    (hr : registerExtensionSpec env st spec = Except.ok st')
    (tok : Nat) (r : ExtensionRecord) (h : st.extRecs.get? tok = some r)
    (hd : r.state = RecordState.disposed) :
    st'.extRecs.get? tok = some r := by
  unfold registerExtensionSpec at hr
  split at hr
  · exact absurd hr (by simp)
  · injection hr with hr'
    rw [← hr']
    apply loadMatchingPointCall_disposedFix
    · simp only
      rw [lget_append _ _ _ (lget_lt h)]
      exact h
    · exact hd

theorem registerExtensionPoint_disposedFix (env : SysEnv) (st : MachineState)
    (pt : ExtensionPoint) (st' : MachineState)
    (hr : registerExtensionPoint env st pt = Except.ok st')
    (tok : Nat) (r : ExtensionRecord) (h : st.extRecs.get? tok = some r)
    (hd : r.state = RecordState.disposed) :
    st'.extRecs.get? tok = some r := by
  unfold registerExtensionPoint at hr
  split at hr
  · exact absurd hr (by simp)
  · injection hr with hr'
    rw [← hr']
    exact loadMatchingExtensionsCall_disposedFix env _ _ tok r h hd

theorem registerPointSpec_disposedFix (env : SysEnv) (st : MachineState)
    (spec : PointSpec) (st' : MachineState)
    (hr : registerPointSpec env st spec = Except.ok st')
    (tok : Nat) (r : ExtensionRecord) (h : st.extRecs.get? tok = some r)
    (hd : r.state = RecordState.disposed) :
    st'.extRecs.get? tok = some r := by
  unfold registerPointSpec at hr
  split at hr
  · exact absurd hr (by simp)
  · injection hr with hr'
    rw [← hr']
    exact loadMatchingExtensionsCall_disposedFix env _ _ tok r h hd

theorem runExtSettle_disposedFix (st : MachineState) (t2 tok : Nat)
    (outcome : Except String (Option ObjVal × Option Nat))
    (r : ExtensionRecord) (h : st.extRecs.get? tok = some r)
    (hd : r.state = RecordState.disposed) :
    (runExtSettle st t2 outcome).extRecs.get? tok = some r := by
  unfold runExtSettle
  split
  · exact h
  · rename_i r2 heq
    split
    · split
      · exact h
      · rename_i hnd
        by_cases ht : t2 = tok
        · subst ht
          rw [heq] at h
          injection h with h'
          rw [h'] at hnd
          exact absurd hd hnd
        · simp only [lget_set_ne _ _ _ _ ht]
          exact h
    · by_cases ht : t2 = tok
      · subst ht
        rw [heq] at h
        injection h with h'
        subst h'
        rw [lget_set_self _ _ _ (lget_lt heq), extRecord_eta_disposed r2 hd]
      · simp only [lget_set_ne _ _ _ _ ht]
        exact h

theorem disposeExtension_disposedFix (st : MachineState) (id : String) (tok : Nat)
    (r : ExtensionRecord) (h : st.extRecs.get? tok = some r)
    (hd : r.state = RecordState.disposed) :
    (disposeExtension st id).extRecs.get? tok = some r := by
  simp only [disposeExtension]
  split
  · exact h
  · rename_i t2 _
    split
    · exact h
    · rename_i r2 heq
      split
      · exact h
      · exact h
      · rename_i hst
        by_cases ht : t2 = tok
        · subst ht
          rw [heq] at h
          injection h with h'
          rw [h'] at hst
          rw [hd] at hst
          exact absurd hst (by simp)
        · simp only [lget_set_ne _ _ _ _ ht]
          exact h
      · rename_i hst
        by_cases ht : t2 = tok
        · subst ht
          rw [heq] at h
          injection h with h'
          rw [h'] at hst
          rw [hd] at hst
          exact absurd hst (by simp)
        · split
          · simp only [lget_set_ne _ _ _ _ ht]
            exact h
          · simp only [lget_set_ne _ _ _ _ ht]
            exact h

theorem applyTask_disposedFix (st : MachineState) (t : MTask) (tok : Nat)
    (r : ExtensionRecord) (h : st.extRecs.get? tok = some r)
    (hd : r.state = RecordState.disposed) :
    (applyTask st t).extRecs.get? tok = some r := by
  cases t with
  | extSettle t2 oc => exact runExtSettle_disposedFix st t2 tok oc r h hd
  | ptSettle t2 oc =>
      rw [applyTask, runPtSettle_extRecs]
      exact h
  | matchSettle ptok etok =>
      rw [applyTask, runMatchSettle_extRecs]
      exact h

theorem fireTask_disposedFix (st : MachineState) (i tok : Nat)
    (r : ExtensionRecord) (h : st.extRecs.get? tok = some r)
    (hd : r.state = RecordState.disposed) :
    (fireTask st i).extRecs.get? tok = some r := by
  unfold fireTask
  split
  · exact h
  · split
    · rename_i ptok etok heq
      dsimp only
      by_cases hc : noSettlePending (st.pending.eraseIdx i) ptok etok = true
      · rw [if_pos hc]
        exact applyTask_disposedFix _ _ tok r h hd
      · rw [if_neg hc]
        exact h
    · exact applyTask_disposedFix _ _ tok r h hd

/-- No event ever touches a disposed extension record again: its store
entry is literally unchanged. -/
theorem applyEvent_disposedFix (env : SysEnv) (st : MachineState) (ev : MEvent) (tok : Nat)
    (r : ExtensionRecord) (h : st.extRecs.get? tok = some r)
    (hd : r.state = RecordState.disposed) :
    (applyEvent env st ev).extRecs.get? tok = some r := by
  cases ev with
  | regExt ext =>
      simp only [applyEvent]
      cases hr : registerExtension env st ext with
      | ok st' => exact registerExtension_disposedFix env st ext st' hr tok r h hd
      | error e => exact h
  | regPoint pt =>
      simp only [applyEvent]
      cases hr : registerExtensionPoint env st pt with
      | ok st' => exact registerExtensionPoint_disposedFix env st pt st' hr tok r h hd
      | error e => exact h
  | regPlugin name =>
      simp only [applyEvent]
      cases hr : registerPlugin st name with
      | ok st' =>
          unfold registerPlugin at hr
          split at hr
          · exact absurd hr (by simp)
          · injection hr with hr'
            rw [← hr']
            exact h
      | error e => exact h
  | regExtSpec spec =>
      simp only [applyEvent]
      cases hr : registerExtensionSpec env st spec with
      | ok st' => exact registerExtensionSpec_disposedFix env st spec st' hr tok r h hd
      | error e => exact h
  | regPointSpec spec =>
      simp only [applyEvent]
      cases hr : registerPointSpec env st spec with
      | ok st' => exact registerPointSpec_disposedFix env st spec st' hr tok r h hd
      | error e => exact h
  | dispExt id => exact disposeExtension_disposedFix st id tok r h hd
  | dispPoint id =>
      rw [applyEvent, disposePoint_extRecs]
      exact h
  | fire i => exact fireTask_disposedFix st i tok r h hd

/-- C2: disposing a record whose load is in flight (`Loading`) only
removes it from the registry and marks it `Disposed`; the settle handler
then finds the `Disposed` state, discards the produced value instead of
storing it (the state is the same except for the disposal log) and
disposes the produced item; and no later event ever changes a disposed
extension record again — no record revives. -/
theorem ext_dispose_during_load_race_safe :
    (∀ (st : MachineState) (id : String) (tok : Nat) (r : ExtensionRecord),
      alookup st.extReg id = some tok →
      st.extRecs.get? tok = some r →
      r.state = RecordState.loading →
      disposeExtension st id =
        { st with extReg := aerase st.extReg id,
                  extRecs := st.extRecs.set tok { r with state := RecordState.disposed } }) ∧
    (∀ (st : MachineState) (tok : Nat) (r : ExtensionRecord)
        (item : Option ObjVal) (d : Option Nat),
      st.extRecs.get? tok = some r →
      r.state = RecordState.disposed →
      runExtSettle st tok (Except.ok (item, d)) =
        { st with log := safeDispose st.log item } ∧
      (runExtSettle st tok (Except.ok (item, d))).log.disposedTags =
        st.log.disposedTags ++
          (match item with
           | some v => cond v.disposable [v.tag] []
           | none => [])) ∧
    (∀ (env : SysEnv) (st : MachineState) (ev : MEvent) (tok : Nat) (r : ExtensionRecord),
      st.extRecs.get? tok = some r →
      r.state = RecordState.disposed →
      (applyEvent env st ev).extRecs.get? tok = some r) := by
  refine ⟨?_, ?_, ?_⟩
  · intro st id tok r h1 h2 h3
    simp only [disposeExtension, h1, h2, h3]
  · intro st tok r item d h hd
    constructor
    · simp only [runExtSettle, h, hd, if_pos]
    · rw [runExtSettle]
      simp only [h, hd, if_pos]
      exact safeDispose_disposedTags st.log item
  · intro env st ev tok r h hd
    exact applyEvent_disposedFix env st ev tok r h hd

/-- C3: registering an already-registered id (extension spec, point spec,
plugin name, or manually constructed extension/point) throws a synchronous
error, and the whole machine state — registries and records — is left
completely unchanged by the failed call. -/
theorem duplicate_registration_throws :
    (∀ (env : SysEnv) (st : MachineState) (spec : ExtensionSpec),
      (alookup st.extReg spec.id).isSome →
      registerExtensionSpec env st spec =
        Except.error ("Extension " ++ spec.id ++ " is already registered.") ∧
      applyEvent env st (MEvent.regExtSpec spec) = st) ∧
    (∀ (env : SysEnv) (st : MachineState) (spec : PointSpec),
      (alookup st.ptReg spec.id).isSome →
      registerPointSpec env st spec =
        Except.error ("Extension point " ++ spec.id ++ " is already registered.") ∧
      applyEvent env st (MEvent.regPointSpec spec) = st) ∧
    (∀ (env : SysEnv) (st : MachineState) (name : String),
      (alookup st.plugReg name).isSome →
      registerPlugin st name =
        Except.error ("Plugin " ++ name ++ " is already registered.") ∧
      applyEvent env st (MEvent.regPlugin name) = st) ∧
    (∀ (env : SysEnv) (st : MachineState) (ext : Extension),
      (alookup st.extReg ext.id).isSome →
      registerExtension env st ext =
        Except.error ("Extension " ++ ext.id ++ " is already registered.") ∧
      applyEvent env st (MEvent.regExt ext) = st) ∧
    (∀ (env : SysEnv) (st : MachineState) (pt : ExtensionPoint),
      (alookup st.ptReg pt.id).isSome →
      registerExtensionPoint env st pt =
        Except.error ("Extension point " ++ pt.id ++ " is already registered.") ∧
      applyEvent env st (MEvent.regPoint pt) = st) := by
  refine ⟨?_, ?_, ?_, ?_, ?_⟩
  · intro env st spec h
    constructor
    · simp only [registerExtensionSpec, h, if_true]
    · simp only [applyEvent, registerExtensionSpec, h, if_true]
  · intro env st spec h
    constructor
    · simp only [registerPointSpec, h, if_true]
    · simp only [applyEvent, registerPointSpec, h, if_true]
  · intro env st name h
    constructor
    · simp only [registerPlugin, h, if_true]
    · simp only [applyEvent, registerPlugin, h, if_true]
  · intro env st ext h
    constructor
    · simp only [registerExtension, h, if_true]
    · simp only [applyEvent, registerExtension, h, if_true]
  · intro env st pt h
    constructor
    · simp only [registerExtensionPoint, h, if_true]
    · simp only [applyEvent, registerExtensionPoint, h, if_true]

/-- C5: when an extension load chain settles with an error, the failure
handler logs the error, marks that record `Disposed` and deletes its id
from the extension registry — while every other record, every other
registry entry, the point side and the pending queue are untouched. -/
theorem ext_load_failure_is_local :
    ∀ (st : MachineState) (tok : Nat) (r : ExtensionRecord) (err : String),
      st.extRecs.get? tok = some r →
      ((runExtSettle st tok (Except.error err)).extRecs.get? tok =
          some { r with state := RecordState.disposed }) ∧
      alookup (runExtSettle st tok (Except.error err)).extReg r.spec.id = none ∧
      (runExtSettle st tok (Except.error err)).log.errors =
        st.log.errors ++
          ["Error occured while loading extension " ++ r.spec.id ++ ".", err] ∧
      (∀ tok', tok' ≠ tok →
        (runExtSettle st tok (Except.error err)).extRecs.get? tok' =
          st.extRecs.get? tok') ∧
      (∀ id, id ≠ r.spec.id →
        alookup (runExtSettle st tok (Except.error err)).extReg id =
          alookup st.extReg id) ∧
      (runExtSettle st tok (Except.error err)).ptRecs = st.ptRecs ∧
      (runExtSettle st tok (Except.error err)).ptReg = st.ptReg ∧
      (runExtSettle st tok (Except.error err)).pending = st.pending := by
  intro st tok r err h
  refine ⟨?_, ?_, ?_, ?_, ?_, ?_, ?_, ?_⟩
  · simp only [runExtSettle, h]
    exact lget_set_self _ _ _ (lget_lt h)
  · simp only [runExtSettle, h]
    exact alookup_aerase_self _ _
  · simp only [runExtSettle, h]
  · intro tok' hne
    simp only [runExtSettle, h]
    exact lget_set_ne _ _ _ _ (fun he => hne he.symm)
  · intro id hne
    simp only [runExtSettle, h]
    exact alookup_aerase_ne _ _ _ hne
  · simp only [runExtSettle, h]
  · simp only [runExtSettle, h]
  · simp only [runExtSettle, h]

/-! ## Load triggers only touch `Unloaded` records -/

theorem loadExtensionCall_stable (env : SysEnv) (st : MachineState) (t2 tok : Nat)
    (r : ExtensionRecord) (h : st.extRecs.get? tok = some r)
    (hs : r.state ≠ RecordState.unloaded) :
    (loadExtensionCall env st t2).extRecs.get? tok = some r := by
  unfold loadExtensionCall
  split
  · exact h
  · rename_i r2 heq
    split
    · exact h
    · exact h
    · exact h
    · rename_i hst
      by_cases ht : t2 = tok
      · subst ht
        rw [heq] at h
        injection h with h'
        rw [h'] at hst
        exact absurd hst hs
      · simp only [lget_set_ne _ _ _ _ ht]
        exact h

theorem loadPointCall_stable (env : SysEnv) (st : MachineState) (t2 tok : Nat)
    (r : PointRecord) (h : st.ptRecs.get? tok = some r)
    (hs : r.state ≠ RecordState.unloaded) :
    (loadPointCall env st t2).ptRecs.get? tok = some r := by
  unfold loadPointCall
  split
  · exact h
  · rename_i r2 heq
    split
    · exact h
    · exact h
    · exact h
    · rename_i hst
      by_cases ht : t2 = tok
      · subst ht
        rw [heq] at h
        injection h with h'
        rw [h'] at hst
        exact absurd hst hs
      · simp only [lget_set_ne _ _ _ _ ht]
        exact h

theorem loadMatchCall_stable (env : SysEnv) (st : MachineState) (ptok etok tok : Nat)
    (r : ExtensionRecord) (h : st.extRecs.get? tok = some r)
    (hs : r.state ≠ RecordState.unloaded) :
    (loadMatchCall env st ptok etok).extRecs.get? tok = some r := by
  unfold loadMatchCall
  simp only
  apply loadExtensionCall_stable
  · rw [loadPointCall_extRecs]
    exact h
  · exact hs

theorem loadMatchCall_stablePt (env : SysEnv) (st : MachineState) (ptok etok tok : Nat)
    (r : PointRecord) (h : st.ptRecs.get? tok = some r)
    (hs : r.state ≠ RecordState.unloaded) :
    (loadMatchCall env st ptok etok).ptRecs.get? tok = some r := by
  unfold loadMatchCall
  simp only
  rw [loadExtensionCall_ptRecs]
  exact loadPointCall_stable env st ptok tok r h hs

theorem loadMatchingPointCall_stable (env : SysEnv) (st : MachineState) (etok tok : Nat)
    (r : ExtensionRecord) (h : st.extRecs.get? tok = some r)
    (hs : r.state ≠ RecordState.unloaded) :
    (loadMatchingPointCall env st etok).extRecs.get? tok = some r := by
  unfold loadMatchingPointCall
  split
  · exact h
  · split
    · exact loadMatchCall_stable env st _ etok tok r h hs
    · exact h

theorem matchExtEntry_stablePt (env : SysEnv) (ptok : Nat) (pid : String)
    (acc : MachineState) (kv : String × Nat) (tok : Nat)
    (r : PointRecord) (h : acc.ptRecs.get? tok = some r)
    (hs : r.state ≠ RecordState.unloaded) :
    (matchExtEntry env ptok pid acc kv).ptRecs.get? tok = some r := by
  unfold matchExtEntry
  split
  · split
    · exact loadMatchCall_stablePt env acc ptok kv.2 tok r h hs
    · exact h
  · exact h

theorem foldl_matchExtEntry_stablePt (env : SysEnv) (ptok : Nat) (pid : String)
    (l : List (String × Nat)) :
    ∀ (st : MachineState) (tok : Nat) (r : PointRecord),
      st.ptRecs.get? tok = some r → r.state ≠ RecordState.unloaded →
      (l.foldl (matchExtEntry env ptok pid) st).ptRecs.get? tok = some r := by
  induction l with
  | nil => intro st tok r h _; exact h
  | cons hd tl ih =>
      intro st tok r h hs
      rw [List.foldl_cons]
      exact ih _ tok r (matchExtEntry_stablePt env ptok pid st hd tok r h hs) hs

theorem loadMatchingExtensionsCall_stablePt (env : SysEnv) (st : MachineState) (ptok tok : Nat)
    (r : PointRecord) (h : st.ptRecs.get? tok = some r)
    (hs : r.state ≠ RecordState.unloaded) :
    (loadMatchingExtensionsCall env st ptok).ptRecs.get? tok = some r := by
  unfold loadMatchingExtensionsCall
  split
  · exact h
  · exact foldl_matchExtEntry_stablePt env ptok _ st.extReg st tok r h hs

/-! ## Concrete fixtures for witnesses and counterexamples -/

/-- A loader oracle whose every import fails (never consulted in the
scenarios that use it). -/
def envNone : SysEnv :=
  { importData := fun _ => Except.error "module not found",
    importExtMain := fun _ => Except.error "module not found",
    importPtMain := fun _ => Except.error "module not found" }

/-- A manually constructed extension value. -/
def extManual : Extension := Extension.create "ext-a" "pt-a" none none none

/-- C9 counterexample: manually registering an already-constructed
extension (`part_015` `registerExtension`) creates its record directly in
the `Loaded` state — not `Unloaded` — with the value already stored. -/
theorem register_manual_loaded_counterexample :
    registerExtension envNone initState extManual =
      Except.ok
        { extRecs := [{ state := RecordState.loaded,
                        spec := { id := "ext-a", point := "pt-a", main := "",
                                  factory := "", dataPath := "", config := none },
                        value := some extManual }],
          ptRecs := [], extReg := [("ext-a", 0)], ptReg := [], plugReg := [],
          pending := [], log := RunLog.empty } := rfl

/-- C9 (amended): records created from specs (`createExtRecord` and
`createPointRecord` of `registry.ts`, also used by the spec registration
paths) and plugin records are created in the `Unloaded` state with no
value, while the manual `registerExtension`/`registerExtensionPoint` of
`part_015` create their records directly in the `Loaded` state holding
the given value. -/
theorem record_creation_states :
    (∀ spec : ExtensionSpec,
      (createExtRecord spec).state = RecordState.unloaded ∧
      (createExtRecord spec).value = none) ∧
    (∀ spec : PointSpec,
      (createPointRecord spec).state = RecordState.unloaded ∧
      (createPointRecord spec).value = none) ∧
    (∀ (st : MachineState) (name : String),
      alookup st.plugReg name = none →
      registerPlugin st name =
        Except.ok
          { st with
              plugReg := aset st.plugReg name (PluginRecord.mk RecordState.unloaded name) }) ∧
    (∀ (env : SysEnv) (st : MachineState) (ext : Extension) (st' : MachineState),
      registerExtension env st ext = Except.ok st' →
      st'.extRecs.get? st.extRecs.length =
        some { state := RecordState.loaded,
               spec := { id := ext.id, point := ext.point, main := "",
                         factory := "", dataPath := "", config := none },
               value := some ext }) ∧
    (∀ (env : SysEnv) (st : MachineState) (pt : ExtensionPoint) (st' : MachineState),
      registerExtensionPoint env st pt = Except.ok st' →
      st'.ptRecs.get? st.ptRecs.length =
        some { state := RecordState.loaded,
               spec := { id := pt.id, main := "", factory := "" },
               value := some pt }) := by
  refine ⟨?_, ?_, ?_, ?_, ?_⟩
  · intro spec
    exact ⟨rfl, rfl⟩
  · intro spec
    exact ⟨rfl, rfl⟩
  · intro st name h
    simp only [registerPlugin, h, Option.isSome_none, Bool.false_eq_true, if_false]
  · intro env st ext st' hr
    unfold registerExtension at hr
    split at hr
    · exact absurd hr (by simp)
    · injection hr with hr'
      rw [← hr']
      apply loadMatchingPointCall_stable
      · simp only
        exact lget_concat_self st.extRecs _
      · simp
  · intro env st pt st' hr
    unfold registerExtensionPoint at hr
    split at hr
    · exact absurd hr (by simp)
    · injection hr with hr'
      rw [← hr']
      apply loadMatchingExtensionsCall_stablePt
      · simp only
        exact lget_concat_self st.ptRecs _
      · simp

/-! ## Claims about the `part_017` extension point and `safeDispose` -/

/-- A disposable handle (used as a stored per-extension handle). -/
def handleObj : ObjVal :=
  { tag := 5, hasAdd := false, hasRemove := false,
    disposable := true, disposeThrows := false }

/-- C7 counterexample: removing a present id from a `part_017` point
deletes the entry and disposes the stored handle, but the receiver is not
invoked at all (`rcvCalls = []`) — there is no receiver-`remove` call. -/
theorem ep17remove_no_receiver_counterexample :
    ep17remove { id := "p", disposed := false, map := [("e", handleObj)] } "e" =
      { pt := { id := "p", disposed := false, map := [] },
        rcvCalls := [], disposedTags := [5], thrown := none } := rfl

/-- C7 (amended): on a live `part_017` point, `add` with an already-present
extension id is a no-op (receiver not invoked, no handle overwritten);
otherwise `add` invokes the receiver once with the extension and stores its
return value keyed by the extension id. `remove` with an absent id is a
no-op; otherwise `remove` deletes the entry and disposes the stored
handle — without invoking the receiver. -/
theorem ep17_add_remove_behavior :
    (∀ (p : ExtensionPoint17) (rcv : ExtArg → ObjVal) (e : ExtArg),
      p.disposed = false → p.id = e.point → (alookup p.map e.id).isSome →
      ep17add p rcv e =
        { pt := p, rcvCalls := [], disposedTags := [], thrown := none }) ∧
    (∀ (p : ExtensionPoint17) (rcv : ExtArg → ObjVal) (e : ExtArg),
      p.disposed = false → p.id = e.point → alookup p.map e.id = none →
      ep17add p rcv e =
        { pt := { p with map := aset p.map e.id (rcv e) },
          rcvCalls := [e], disposedTags := [], thrown := none }) ∧
    (∀ (p : ExtensionPoint17) (id : String),
      p.disposed = false → alookup p.map id = none →
      ep17remove p id =
        { pt := p, rcvCalls := [], disposedTags := [], thrown := none }) ∧
    (∀ (p : ExtensionPoint17) (id : String) (obj : ObjVal),
      p.disposed = false → alookup p.map id = some obj →
      (ep17remove p id).pt = { p with map := aerase p.map id } ∧
      (ep17remove p id).rcvCalls = [] ∧
      (ep17remove p id).disposedTags = cond obj.disposable [obj.tag] []) := by
  refine ⟨?_, ?_, ?_, ?_⟩
  · intro p rcv e h1 h2 h3
    simp only [ep17add, h1, h2, h3, Bool.false_eq_true, if_false, ne_eq,
      not_true_eq_false, if_true]
  · intro p rcv e h1 h2 h3
    simp only [ep17add, h1, h2, h3, Bool.false_eq_true, if_false, ne_eq,
      not_true_eq_false, Option.isSome_none, if_true]
  · intro p id h1 h2
    simp only [ep17remove, h1, h2, Bool.false_eq_true, if_false]
  · intro p id obj h1 h2
    cases hd : obj.disposable <;> cases ht : obj.disposeThrows <;>
      simp [ep17remove, h1, h2, safeDispose17, hd, ht]

/-- C10: calling `add` or `remove` on a disposed `part_017` point throws,
and calling `add` with an extension whose `point` differs from the point's
id throws the mismatch error; in every such case the receiver is not
invoked, no handle is disposed and the map is unchanged. -/
theorem ep17_guard_errors :
    (∀ (p : ExtensionPoint17) (rcv : ExtArg → ObjVal) (e : ExtArg),
      p.disposed = true →
      ep17add p rcv e =
        { pt := p, rcvCalls := [], disposedTags := [],
          thrown := some "Extension point is disposed." }) ∧
    (∀ (p : ExtensionPoint17) (id : String),
      p.disposed = true →
      ep17remove p id =
        { pt := p, rcvCalls := [], disposedTags := [],
          thrown := some "Extension point is disposed." }) ∧
    (∀ (p : ExtensionPoint17) (rcv : ExtArg → ObjVal) (e : ExtArg),
      p.disposed = false → p.id ≠ e.point →
      ep17add p rcv e =
        { pt := p, rcvCalls := [], disposedTags := [],
          thrown := some ("Extension point mismatch: " ++ p.id ++ " != " ++ e.point) }) := by
  refine ⟨?_, ?_, ?_⟩
  · intro p rcv e h
    simp only [ep17add, h, if_true]
  · intro p id h
    simp only [ep17remove, h, if_true]
  · intro p rcv e h1 h2
    simp only [ep17add, h1, h2, Bool.false_eq_true, if_false, ne_eq,
      not_false_eq_true, if_true]

/-- C8 counterexample: the `part_017` `safeDispose` has no `try`/`catch`;
disposing an object whose `dispose` throws propagates the error to the
caller. -/
theorem safeDispose17_propagates_counterexample :
    safeDispose17 (some { tag := 7, hasAdd := false, hasRemove := false,
                          disposable := true, disposeThrows := true }) =
      Except.error "dispose error" := rfl

/-- C8 (amended): the `safeDispose` helpers of `part_011` and `part_015`
invoke `dispose` exactly when it is a callable member, catch a thrown
error and log it instead of propagating (the wrapper is a total function
into the log), and `safeDisposeMap` built on it therefore disposes every
disposable sibling even when earlier handles throw. The `part_017`
variant instead performs only the null/callable check and propagates. -/
theorem safeDispose_catches_and_logs :
    (∀ (log : RunLog) (o : ObjVal),
      (safeDispose log (some o)).disposedTags =
        log.disposedTags ++ cond o.disposable [o.tag] [] ∧
      (safeDispose log (some o)).errors =
        log.errors ++ cond (o.disposable && o.disposeThrows) ["dispose error"] []) ∧
    (∀ (log : RunLog) (m : List (String × ObjVal)),
      (safeDisposeMap log m).disposedTags =
        log.disposedTags ++
          (m.filter (fun kv => kv.2.disposable)).map (fun kv => kv.2.tag)) := by
  constructor
  · intro log o
    constructor
    · rw [safeDispose_disposedTags]
    · rw [safeDispose_errors]
  · intro log m
    induction m generalizing log with
    | nil => simp [safeDisposeMap]
    | cons hd tl ih =>
        rw [safeDisposeMap, List.foldl_cons]
        rw [show (tl.foldl (fun acc kv => safeDispose acc (some kv.2))
              (safeDispose log (some hd.2))) =
            safeDisposeMap (safeDispose log (some hd.2)) tl from rfl]
        rw [ih, safeDispose_disposedTags]
        cases hd2 : hd.2.disposable <;>
          simp [List.filter_cons, hd2, List.append_assoc]

/-- C4: for an extension spec targeting a point spec, registering the
extension before the point and the point before the extension produce the
same final connection once both loads settle successfully: in both orders,
after the queued continuations run, the receiver has been invoked exactly
once, with the extension value built from the extension's spec. -/
theorem match_order_independent :
    ∀ (env : SysEnv) (espec : ExtensionSpec) (pspec : PointSpec)
      (item : Option ObjVal) (d : Option Nat) (rcv : ObjVal),
      espec.point = pspec.id →
      extLoadOutcome env espec = Except.ok (item, d) →
      ptLoadOutcome env pspec = Except.ok rcv →
      (drainAll (runEvents env initState
          [MEvent.regExtSpec espec, MEvent.regPointSpec pspec])).log.recvAdds =
        [(rcv.tag, Extension.create espec.id espec.point item d espec.config)] ∧
      (drainAll (runEvents env initState
          [MEvent.regPointSpec pspec, MEvent.regExtSpec espec])).log.recvAdds =
        [(rcv.tag, Extension.create espec.id espec.point item d espec.config)] := by
  intro env espec pspec item d rcv h he hp
  constructor
  · simp [runEvents, applyEvent, registerExtensionSpec, registerPointSpec,
      createExtRecord, createPointRecord, initState, alookup, aset,
      loadMatchingPointCall, loadMatchingExtensionsCall, matchExtEntry,
      loadMatchCall, loadPointCall, loadExtensionCall, drainAll, applyTask,
      runPtSettle, runExtSettle, runMatchSettle, ExtensionPoint.addOp,
      RunLog.empty, h, he, hp]
  · simp [runEvents, applyEvent, registerExtensionSpec, registerPointSpec,
      createExtRecord, createPointRecord, initState, alookup, aset,
      loadMatchingPointCall, loadMatchingExtensionsCall, matchExtEntry,
      loadMatchCall, loadPointCall, loadExtensionCall, drainAll, applyTask,
      runPtSettle, runExtSettle, runMatchSettle, ExtensionPoint.addOp,
      RunLog.empty, h, he, hp]

/-! ## The registry invariant: a registered record has a value iff Loaded

Every registry entry points to an existing record whose `spec.id` equals
the entry key and whose `value` is non-null exactly when its state is
`Loaded`. Disposal and load-failure remove a record from the registry
before breaking or keeping its value, so the invariant is preserved by
every event. -/

def extRegOk (st : MachineState) : Prop :=
  ∀ id tok, alookup st.extReg id = some tok →
    ∃ r, st.extRecs.get? tok = some r ∧ r.spec.id = id ∧
      (r.value.isSome ↔ r.state = RecordState.loaded)

def ptRegOk (st : MachineState) : Prop :=
  ∀ id tok, alookup st.ptReg id = some tok →
    ∃ r, st.ptRecs.get? tok = some r ∧ r.spec.id = id ∧
      (r.value.isSome ↔ r.state = RecordState.loaded)

theorem extRegOk_init : extRegOk initState := by
  intro id tok h
  exact absurd h (by simp [initState, alookup])

theorem ptRegOk_init : ptRegOk initState := by
  intro id tok h
  exact absurd h (by simp [initState, alookup])

theorem loadExtensionCall_extRegOk (env : SysEnv) (st : MachineState) (t2 : Nat)
    (hI : extRegOk st) : extRegOk (loadExtensionCall env st t2) := by
  intro id tok hlook
  rw [loadExtensionCall_extReg] at hlook
  obtain ⟨r, hr, hid, hiff⟩ := hI id tok hlook
  unfold loadExtensionCall
  split
  · exact ⟨r, hr, hid, hiff⟩
  · rename_i r2 heq
    split
    · exact ⟨r, hr, hid, hiff⟩
    · exact ⟨r, hr, hid, hiff⟩
    · exact ⟨r, hr, hid, hiff⟩
    · rename_i hst
      by_cases ht : t2 = tok
      · subst ht
        rw [heq] at hr
        injection hr with hr'
        subst hr'
        refine ⟨{ r2 with state := RecordState.loading }, ?_, hid, ?_⟩
        · exact lget_set_self _ _ _ (lget_lt heq)
        · simp only
          constructor
          · intro hv
            have hx := hiff.mp hv
            rw [hst] at hx
            exact absurd hx (by simp)
          · intro hx
            exact absurd hx (by simp)
      · refine ⟨r, ?_, hid, hiff⟩
        rw [lget_set_ne _ _ _ _ ht]
        exact hr

theorem loadExtensionCall_ptRegOk (env : SysEnv) (st : MachineState) (t2 : Nat)
    (hI : ptRegOk st) : ptRegOk (loadExtensionCall env st t2) := by
  intro id tok hlook
  rw [loadExtensionCall_ptReg] at hlook
  rw [loadExtensionCall_ptRecs]
  exact hI id tok hlook

theorem loadPointCall_ptRegOk (env : SysEnv) (st : MachineState) (t2 : Nat)
    (hI : ptRegOk st) : ptRegOk (loadPointCall env st t2) := by
  intro id tok hlook
  rw [loadPointCall_ptReg] at hlook
  obtain ⟨r, hr, hid, hiff⟩ := hI id tok hlook
  unfold loadPointCall
  split
  · exact ⟨r, hr, hid, hiff⟩
  · rename_i r2 heq
    split
    · exact ⟨r, hr, hid, hiff⟩
    · exact ⟨r, hr, hid, hiff⟩
    · exact ⟨r, hr, hid, hiff⟩
    · rename_i hst
      by_cases ht : t2 = tok
      · subst ht
        rw [heq] at hr
        injection hr with hr'
        subst hr'
        refine ⟨{ r2 with state := RecordState.loading }, ?_, hid, ?_⟩
        · exact lget_set_self _ _ _ (lget_lt heq)
        · simp only
          constructor
          · intro hv
            have hx := hiff.mp hv
            rw [hst] at hx
            exact absurd hx (by simp)
          · intro hx
            exact absurd hx (by simp)
      · refine ⟨r, ?_, hid, hiff⟩
        rw [lget_set_ne _ _ _ _ ht]
        exact hr

theorem loadPointCall_extRegOk (env : SysEnv) (st : MachineState) (t2 : Nat)
    (hI : extRegOk st) : extRegOk (loadPointCall env st t2) := by
  intro id tok hlook
  rw [loadPointCall_extReg] at hlook
  rw [loadPointCall_extRecs]
  exact hI id tok hlook

theorem loadMatchCall_extRegOk (env : SysEnv) (st : MachineState) (ptok etok : Nat)
    (hI : extRegOk st) : extRegOk (loadMatchCall env st ptok etok) := by
  unfold loadMatchCall
  simp only
  intro id tok hlook
  exact loadExtensionCall_extRegOk env _ etok
    (loadPointCall_extRegOk env st ptok hI) id tok hlook

theorem loadMatchCall_ptRegOk (env : SysEnv) (st : MachineState) (ptok etok : Nat)
    (hI : ptRegOk st) : ptRegOk (loadMatchCall env st ptok etok) := by
  unfold loadMatchCall
  simp only
  intro id tok hlook
  exact loadExtensionCall_ptRegOk env _ etok
    (loadPointCall_ptRegOk env st ptok hI) id tok hlook

theorem matchExtEntry_extRegOk (env : SysEnv) (ptok : Nat) (pid : String)
    (acc : MachineState) (kv : String × Nat)
    (hI : extRegOk acc) : extRegOk (matchExtEntry env ptok pid acc kv) := by
  unfold matchExtEntry
  split
  · split
    · exact loadMatchCall_extRegOk env acc ptok kv.2 hI
    · exact hI
  · exact hI

theorem matchExtEntry_ptRegOk (env : SysEnv) (ptok : Nat) (pid : String)
    (acc : MachineState) (kv : String × Nat)
    (hI : ptRegOk acc) : ptRegOk (matchExtEntry env ptok pid acc kv) := by
  unfold matchExtEntry
  split
  · split
    · exact loadMatchCall_ptRegOk env acc ptok kv.2 hI
    · exact hI
  · exact hI

theorem foldl_matchExtEntry_extRegOk (env : SysEnv) (ptok : Nat) (pid : String)
    (l : List (String × Nat)) :
    ∀ st : MachineState, extRegOk st →
      extRegOk (l.foldl (matchExtEntry env ptok pid) st) := by
  induction l with
  | nil => intro st h; exact h
  | cons hd tl ih =>
      intro st h
      rw [List.foldl_cons]
      exact ih _ (matchExtEntry_extRegOk env ptok pid st hd h)

theorem foldl_matchExtEntry_ptRegOk (env : SysEnv) (ptok : Nat) (pid : String)
    (l : List (String × Nat)) :
    ∀ st : MachineState, ptRegOk st →
      ptRegOk (l.foldl (matchExtEntry env ptok pid) st) := by
  induction l with
  | nil => intro st h; exact h
  | cons hd tl ih =>
      intro st h
      rw [List.foldl_cons]
      exact ih _ (matchExtEntry_ptRegOk env ptok pid st hd h)

theorem loadMatchingExtensionsCall_extRegOk (env : SysEnv) (st : MachineState) (ptok : Nat)
    (hI : extRegOk st) : extRegOk (loadMatchingExtensionsCall env st ptok) := by
  unfold loadMatchingExtensionsCall
  split
  · exact hI
  · exact foldl_matchExtEntry_extRegOk env ptok _ st.extReg st hI

theorem loadMatchingExtensionsCall_ptRegOk (env : SysEnv) (st : MachineState) (ptok : Nat)
    (hI : ptRegOk st) : ptRegOk (loadMatchingExtensionsCall env st ptok) := by
  unfold loadMatchingExtensionsCall
  split
  · exact hI
  · exact foldl_matchExtEntry_ptRegOk env ptok _ st.extReg st hI

theorem loadMatchingPointCall_extRegOk (env : SysEnv) (st : MachineState) (etok : Nat)
    (hI : extRegOk st) : extRegOk (loadMatchingPointCall env st etok) := by
  unfold loadMatchingPointCall
  split
  · exact hI
  · split
    · exact loadMatchCall_extRegOk env st _ etok hI
    · exact hI

theorem loadMatchingPointCall_ptRegOk (env : SysEnv) (st : MachineState) (etok : Nat)
    (hI : ptRegOk st) : ptRegOk (loadMatchingPointCall env st etok) := by
  unfold loadMatchingPointCall
  split
  · exact hI
  · split
    · exact loadMatchCall_ptRegOk env st _ etok hI
    · exact hI

theorem extRegOk_register (st : MachineState) (record : ExtensionRecord) (key : String)
    (hkey : record.spec.id = key)
    (hrec : record.value.isSome ↔ record.state = RecordState.loaded)
    (hI : extRegOk st) :
    extRegOk { st with extRecs := st.extRecs ++ [record],
                       extReg := aset st.extReg key st.extRecs.length } := by
  intro id tok hlook
  simp only at hlook ⊢
  by_cases hid : id = key
  · subst hid
    rw [alookup_aset_self] at hlook
    injection hlook with h'
    subst h'
    exact ⟨record, lget_concat_self _ _, hkey, hrec⟩
  · rw [alookup_aset_ne _ _ _ _ (fun he => hid he.symm)] at hlook
    obtain ⟨r, hr, hid2, hiff⟩ := hI id tok hlook
    refine ⟨r, ?_, hid2, hiff⟩
    rw [lget_append _ _ _ (lget_lt hr)]
    exact hr

theorem ptRegOk_extRegister (st : MachineState) (record : ExtensionRecord) (key : String)
    (tok : Nat) (hI : ptRegOk st) :
    ptRegOk { st with extRecs := st.extRecs ++ [record],
                      extReg := aset st.extReg key tok } := by
  intro id tok2 hlook
  simp only at hlook ⊢
  exact hI id tok2 hlook

theorem ptRegOk_register (st : MachineState) (record : PointRecord) (key : String)
    (hkey : record.spec.id = key)
    (hrec : record.value.isSome ↔ record.state = RecordState.loaded)
    (hI : ptRegOk st) :
    ptRegOk { st with ptRecs := st.ptRecs ++ [record],
                      ptReg := aset st.ptReg key st.ptRecs.length } := by
  intro id tok hlook
  simp only at hlook ⊢
  by_cases hid : id = key
  · subst hid
    rw [alookup_aset_self] at hlook
    injection hlook with h'
    subst h'
    exact ⟨record, lget_concat_self _ _, hkey, hrec⟩
  · rw [alookup_aset_ne _ _ _ _ (fun he => hid he.symm)] at hlook
    obtain ⟨r, hr, hid2, hiff⟩ := hI id tok hlook
    refine ⟨r, ?_, hid2, hiff⟩
    rw [lget_append _ _ _ (lget_lt hr)]
    exact hr

theorem extRegOk_ptRegister (st : MachineState) (record : PointRecord) (key : String)
    (tok : Nat) (hI : extRegOk st) :
    extRegOk { st with ptRecs := st.ptRecs ++ [record],
                       ptReg := aset st.ptReg key tok } := by
  intro id tok2 hlook
  simp only at hlook ⊢
  exact hI id tok2 hlook

theorem registerExtension_regOk (env : SysEnv) (st : MachineState) (ext : Extension)
    (st' : MachineState) (hr : registerExtension env st ext = Except.ok st')
    (hIe : extRegOk st) (hIp : ptRegOk st) : extRegOk st' ∧ ptRegOk st' := by
  unfold registerExtension at hr
  split at hr
  · exact absurd hr (by simp)
  · injection hr with hr'
    rw [← hr']
    constructor
    · exact loadMatchingPointCall_extRegOk env _ _
        (extRegOk_register st _ ext.id rfl (by simp) hIe)
    · exact loadMatchingPointCall_ptRegOk env _ _
        (ptRegOk_extRegister st _ ext.id _ hIp)

theorem registerExtensionSpec_regOk (env : SysEnv) (st : MachineState)
    (spec : ExtensionSpec) (st' : MachineState)
    (hr : registerExtensionSpec env st spec = Except.ok st')
    (hIe : extRegOk st) (hIp : ptRegOk st) : extRegOk st' ∧ ptRegOk st' := by
  unfold registerExtensionSpec at hr
  split at hr
  · exact absurd hr (by simp)
  · injection hr with hr'
    rw [← hr']
    constructor
    · exact loadMatchingPointCall_extRegOk env _ _
        (extRegOk_register st _ spec.id rfl (by simp [createExtRecord]) hIe)
    · exact loadMatchingPointCall_ptRegOk env _ _
        (ptRegOk_extRegister st _ spec.id _ hIp)

theorem registerExtensionPoint_regOk (env : SysEnv) (st : MachineState)
    (pt : ExtensionPoint) (st' : MachineState)
    (hr : registerExtensionPoint env st pt = Except.ok st')
    (hIe : extRegOk st) (hIp : ptRegOk st) : extRegOk st' ∧ ptRegOk st' := by
  unfold registerExtensionPoint at hr
  split at hr
  · exact absurd hr (by simp)
  · injection hr with hr'
    rw [← hr']
    constructor
    · exact loadMatchingExtensionsCall_extRegOk env _ _
        (extRegOk_ptRegister st _ pt.id _ hIe)
    · exact loadMatchingExtensionsCall_ptRegOk env _ _
        (ptRegOk_register st _ pt.id rfl (by simp) hIp)

theorem registerPointSpec_regOk (env : SysEnv) (st : MachineState)
    (spec : PointSpec) (st' : MachineState)
    (hr : registerPointSpec env st spec = Except.ok st')
    (hIe : extRegOk st) (hIp : ptRegOk st) : extRegOk st' ∧ ptRegOk st' := by
  unfold registerPointSpec at hr
  split at hr
  · exact absurd hr (by simp)
  · injection hr with hr'
    rw [← hr']
    constructor
    · exact loadMatchingExtensionsCall_extRegOk env _ _
        (extRegOk_ptRegister st _ spec.id _ hIe)
    · exact loadMatchingExtensionsCall_ptRegOk env _ _
        (ptRegOk_register st _ spec.id rfl (by simp [createPointRecord]) hIp)

theorem registerPlugin_regOk (st : MachineState) (name : String)
    (st' : MachineState) (hr : registerPlugin st name = Except.ok st')
    (hIe : extRegOk st) (hIp : ptRegOk st) : extRegOk st' ∧ ptRegOk st' := by
  unfold registerPlugin at hr
  split at hr
  · exact absurd hr (by simp)
  · injection hr with hr'
    rw [← hr']
    constructor
    · intro id tok hlook
      exact hIe id tok hlook
    · intro id tok hlook
      exact hIp id tok hlook

theorem runExtSettle_extRegOk (st : MachineState) (t2 : Nat)
    (outcome : Except String (Option ObjVal × Option Nat))
    (hIe : extRegOk st) : extRegOk (runExtSettle st t2 outcome) := by
  unfold runExtSettle
  split
  · exact hIe
  · rename_i r2 heq
    split
    · split
      · intro id tok hlook
        simp only at hlook ⊢
        exact hIe id tok hlook
      · intro id tok hlook
        simp only at hlook ⊢
        obtain ⟨r, hr, hid, hiff⟩ := hIe id tok hlook
        by_cases ht : t2 = tok
        · subst ht
          rw [heq] at hr
          injection hr with hr'
          subst hr'
          refine ⟨_, lget_set_self _ _ _ (lget_lt heq), hid, by simp⟩
        · refine ⟨r, ?_, hid, hiff⟩
          rw [lget_set_ne _ _ _ _ ht]
          exact hr
    · intro id tok hlook
      simp only at hlook ⊢
      have hidne : id ≠ r2.spec.id := by
        intro he
        rw [he, alookup_aerase_self] at hlook
        exact absurd hlook (by simp)
      rw [alookup_aerase_ne _ _ _ hidne] at hlook
      obtain ⟨r, hr, hid, hiff⟩ := hIe id tok hlook
      by_cases ht : t2 = tok
      · subst ht
        rw [heq] at hr
        injection hr with hr'
        subst hr'
        exact absurd hid (fun hh => hidne hh.symm)
      · refine ⟨r, ?_, hid, hiff⟩
        rw [lget_set_ne _ _ _ _ ht]
        exact hr

theorem runExtSettle_ptRegOk (st : MachineState) (t2 : Nat)
    (outcome : Except String (Option ObjVal × Option Nat))
    (hIp : ptRegOk st) : ptRegOk (runExtSettle st t2 outcome) := by
  intro id tok hlook
  rw [runExtSettle_ptReg] at hlook
  rw [runExtSettle_ptRecs]
  exact hIp id tok hlook

theorem runPtSettle_ptRegOk (st : MachineState) (t2 : Nat)
    (outcome : Except String ObjVal)
    (hIp : ptRegOk st) : ptRegOk (runPtSettle st t2 outcome) := by
  unfold runPtSettle
  split
  · exact hIp
  · rename_i r2 heq
    split
    · split
      · intro id tok hlook
        simp only at hlook ⊢
        exact hIp id tok hlook
      · intro id tok hlook
        simp only at hlook ⊢
        obtain ⟨r, hr, hid, hiff⟩ := hIp id tok hlook
        by_cases ht : t2 = tok
        · subst ht
          rw [heq] at hr
          injection hr with hr'
          subst hr'
          refine ⟨_, lget_set_self _ _ _ (lget_lt heq), hid, by simp⟩
        · refine ⟨r, ?_, hid, hiff⟩
          rw [lget_set_ne _ _ _ _ ht]
          exact hr
    · intro id tok hlook
      simp only at hlook ⊢
      have hidne : id ≠ r2.spec.id := by
        intro he
        rw [he, alookup_aerase_self] at hlook
        exact absurd hlook (by simp)
      rw [alookup_aerase_ne _ _ _ hidne] at hlook
      obtain ⟨r, hr, hid, hiff⟩ := hIp id tok hlook
      by_cases ht : t2 = tok
      · subst ht
        rw [heq] at hr
        injection hr with hr'
        subst hr'
        exact absurd hid (fun hh => hidne hh.symm)
      · refine ⟨r, ?_, hid, hiff⟩
        rw [lget_set_ne _ _ _ _ ht]
        exact hr

theorem runPtSettle_extRegOk (st : MachineState) (t2 : Nat)
    (outcome : Except String ObjVal)
    (hIe : extRegOk st) : extRegOk (runPtSettle st t2 outcome) := by
  intro id tok hlook
  rw [runPtSettle_extReg] at hlook
  rw [runPtSettle_extRecs]
  exact hIe id tok hlook

theorem runMatchSettle_extRegOk (st : MachineState) (ptok etok : Nat)
    (hIe : extRegOk st) : extRegOk (runMatchSettle st ptok etok) := by
  intro id tok hlook
  rw [runMatchSettle_extReg] at hlook
  rw [runMatchSettle_extRecs]
  exact hIe id tok hlook

theorem runMatchSettle_ptRegOk (st : MachineState) (ptok etok : Nat)
    (hIp : ptRegOk st) : ptRegOk (runMatchSettle st ptok etok) := by
  intro id tok hlook
  rw [runMatchSettle_ptReg] at hlook
  rw [runMatchSettle_ptRecs]
  exact hIp id tok hlook

theorem extRegOk_erase {st st' : MachineState} {idd : String}
    (hreg : st'.extReg = aerase st.extReg idd)
    (hrecs : st'.extRecs = st.extRecs)
    (hIe : extRegOk st) : extRegOk st' := by
  intro id tok hlook
  rw [hreg] at hlook
  rw [hrecs]
  have hidne : id ≠ idd := by
    intro he
    rw [he, alookup_aerase_self] at hlook
    exact absurd hlook (by simp)
  rw [alookup_aerase_ne _ _ _ hidne] at hlook
  exact hIe id tok hlook

theorem extRegOk_erase_set {st st' : MachineState} {idd : String} {t2 : Nat}
    {r2 newrec : ExtensionRecord}
    (hreg : st'.extReg = aerase st.extReg idd)
    (hrecs : st'.extRecs = st.extRecs.set t2 newrec)
    (heq0 : alookup st.extReg idd = some t2)
    (heq : st.extRecs.get? t2 = some r2)
    (hIe : extRegOk st) : extRegOk st' := by
  intro id tok hlook
  rw [hreg] at hlook
  rw [hrecs]
  have hidne : id ≠ idd := by
    intro he
    rw [he, alookup_aerase_self] at hlook
    exact absurd hlook (by simp)
  rw [alookup_aerase_ne _ _ _ hidne] at hlook
  obtain ⟨r, hr, hid, hiff⟩ := hIe id tok hlook
  obtain ⟨rr, hrr, hridd, _⟩ := hIe idd t2 heq0
  rw [heq] at hrr
  injection hrr with hrr'
  subst hrr'
  by_cases ht : t2 = tok
  · subst ht
    rw [heq] at hr
    injection hr with h'
    subst h'
    exact absurd (hid.symm.trans hridd) hidne
  · rw [lget_set_ne _ _ _ _ ht]
    exact ⟨r, hr, hid, hiff⟩

theorem ptRegOk_erase {st st' : MachineState} {idd : String}
    (hreg : st'.ptReg = aerase st.ptReg idd)
    (hrecs : st'.ptRecs = st.ptRecs)
    (hIp : ptRegOk st) : ptRegOk st' := by
  intro id tok hlook
  rw [hreg] at hlook
  rw [hrecs]
  have hidne : id ≠ idd := by
    intro he
    rw [he, alookup_aerase_self] at hlook
    exact absurd hlook (by simp)
  rw [alookup_aerase_ne _ _ _ hidne] at hlook
  exact hIp id tok hlook

theorem ptRegOk_erase_set {st st' : MachineState} {idd : String} {t2 : Nat}
    {r2 newrec : PointRecord}
    (hreg : st'.ptReg = aerase st.ptReg idd)
    (hrecs : st'.ptRecs = st.ptRecs.set t2 newrec)
    (heq0 : alookup st.ptReg idd = some t2)
    (heq : st.ptRecs.get? t2 = some r2)
    (hIp : ptRegOk st) : ptRegOk st' := by
  intro id tok hlook
  rw [hreg] at hlook
  rw [hrecs]
  have hidne : id ≠ idd := by
    intro he
    rw [he, alookup_aerase_self] at hlook
    exact absurd hlook (by simp)
  rw [alookup_aerase_ne _ _ _ hidne] at hlook
  obtain ⟨r, hr, hid, hiff⟩ := hIp id tok hlook
  obtain ⟨rr, hrr, hridd, _⟩ := hIp idd t2 heq0
  rw [heq] at hrr
  injection hrr with hrr'
  subst hrr'
  by_cases ht : t2 = tok
  · subst ht
    rw [heq] at hr
    injection hr with h'
    subst h'
    exact absurd (hid.symm.trans hridd) hidne
  · rw [lget_set_ne _ _ _ _ ht]
    exact ⟨r, hr, hid, hiff⟩

theorem disposeExtension_extRegOk (st : MachineState) (idd : String)
    (hIe : extRegOk st) : extRegOk (disposeExtension st idd) := by
  simp only [disposeExtension]
  split
  · exact hIe
  · rename_i t2 heq0
    split
    · exact extRegOk_erase rfl rfl hIe
    · rename_i r2 heq
      split
      · exact extRegOk_erase rfl rfl hIe
      · exact extRegOk_erase rfl rfl hIe
      · exact extRegOk_erase_set rfl rfl heq0 heq hIe
      · split
        · exact extRegOk_erase_set rfl rfl heq0 heq hIe
        · exact extRegOk_erase_set rfl rfl heq0 heq hIe

theorem disposeExtension_ptRegOk (st : MachineState) (idd : String)
    (hIp : ptRegOk st) : ptRegOk (disposeExtension st idd) := by
  intro id tok hlook
  rw [disposeExtension_ptReg] at hlook
  rw [disposeExtension_ptRecs]
  exact hIp id tok hlook

theorem disposePoint_ptRegOk (st : MachineState) (idd : String)
    (hIp : ptRegOk st) : ptRegOk (disposePoint st idd) := by
  simp only [disposePoint]
  split
  · exact hIp
  · rename_i t2 heq0
    split
    · exact ptRegOk_erase rfl rfl hIp
    · rename_i r2 heq
      split
      · exact ptRegOk_erase rfl rfl hIp
      · exact ptRegOk_erase rfl rfl hIp
      · exact ptRegOk_erase_set rfl rfl heq0 heq hIp
      · split
        · exact ptRegOk_erase_set rfl rfl heq0 heq hIp
        · exact ptRegOk_erase_set rfl rfl heq0 heq hIp

theorem disposePoint_extRegOk (st : MachineState) (idd : String)
    (hIe : extRegOk st) : extRegOk (disposePoint st idd) := by
  intro id tok hlook
  rw [disposePoint_extReg] at hlook
  rw [disposePoint_extRecs]
  exact hIe id tok hlook

theorem applyTask_regOk (st : MachineState) (t : MTask)
    (hIe : extRegOk st) (hIp : ptRegOk st) :
    extRegOk (applyTask st t) ∧ ptRegOk (applyTask st t) := by
  cases t with
  | extSettle tok oc =>
      exact ⟨runExtSettle_extRegOk st tok oc hIe, runExtSettle_ptRegOk st tok oc hIp⟩
  | ptSettle tok oc =>
      exact ⟨runPtSettle_extRegOk st tok oc hIe, runPtSettle_ptRegOk st tok oc hIp⟩
  | matchSettle ptok etok =>
      exact ⟨runMatchSettle_extRegOk st ptok etok hIe, runMatchSettle_ptRegOk st ptok etok hIp⟩

theorem regOk_pending (st : MachineState) (p : List MTask)
    (hIe : extRegOk st) (hIp : ptRegOk st) :
    extRegOk { st with pending := p } ∧ ptRegOk { st with pending := p } := by
  constructor
  · intro id tok hlook
    exact hIe id tok hlook
  · intro id tok hlook
    exact hIp id tok hlook

theorem fireTask_regOk (st : MachineState) (i : Nat)
    (hIe : extRegOk st) (hIp : ptRegOk st) :
    extRegOk (fireTask st i) ∧ ptRegOk (fireTask st i) := by
  unfold fireTask
  split
  · exact ⟨hIe, hIp⟩
  · split
    · rename_i ptok etok heq
      dsimp only
      by_cases hc : noSettlePending (st.pending.eraseIdx i) ptok etok = true
      · rw [if_pos hc]
        obtain ⟨h1, h2⟩ := regOk_pending st (st.pending.eraseIdx i) hIe hIp
        exact applyTask_regOk _ _ h1 h2
      · rw [if_neg hc]
        exact ⟨hIe, hIp⟩
    · obtain ⟨h1, h2⟩ := regOk_pending st (st.pending.eraseIdx i) hIe hIp
      exact applyTask_regOk _ _ h1 h2

theorem applyEvent_regOk (env : SysEnv) (st : MachineState) (ev : MEvent)
    (hIe : extRegOk st) (hIp : ptRegOk st) :
    extRegOk (applyEvent env st ev) ∧ ptRegOk (applyEvent env st ev) := by
  cases ev with
  | regExt ext =>
      simp only [applyEvent]
      cases hr : registerExtension env st ext with
      | ok st' => exact registerExtension_regOk env st ext st' hr hIe hIp
      | error e => exact ⟨hIe, hIp⟩
  | regPoint pt =>
      simp only [applyEvent]
      cases hr : registerExtensionPoint env st pt with
      | ok st' => exact registerExtensionPoint_regOk env st pt st' hr hIe hIp
      | error e => exact ⟨hIe, hIp⟩
  | regPlugin name =>
      simp only [applyEvent]
      cases hr : registerPlugin st name with
      | ok st' => exact registerPlugin_regOk st name st' hr hIe hIp
      | error e => exact ⟨hIe, hIp⟩
  | regExtSpec spec =>
      simp only [applyEvent]
      cases hr : registerExtensionSpec env st spec with
      | ok st' => exact registerExtensionSpec_regOk env st spec st' hr hIe hIp
      | error e => exact ⟨hIe, hIp⟩
  | regPointSpec spec =>
      simp only [applyEvent]
      cases hr : registerPointSpec env st spec with
      | ok st' => exact registerPointSpec_regOk env st spec st' hr hIe hIp
      | error e => exact ⟨hIe, hIp⟩
  | dispExt id =>
      exact ⟨disposeExtension_extRegOk st id hIe, disposeExtension_ptRegOk st id hIp⟩
  | dispPoint id =>
      exact ⟨disposePoint_extRegOk st id hIe, disposePoint_ptRegOk st id hIp⟩
  | fire i => exact fireTask_regOk st i hIe hIp

theorem runEvents_regOk (env : SysEnv) (evs : List MEvent) :
    ∀ st : MachineState, extRegOk st → ptRegOk st →
      extRegOk (runEvents env st evs) ∧ ptRegOk (runEvents env st evs) := by
  induction evs with
  | nil => intro st hIe hIp; exact ⟨hIe, hIp⟩
  | cons hd tl ih =>
      intro st hIe hIp
      rw [runEvents, List.foldl_cons]
      obtain ⟨h1, h2⟩ := applyEvent_regOk env st hd hIe hIp
      exact ih _ h1 h2

/-- A reachable state in which a record violates the value/state
equivalence: register a manual extension (Loaded, value stored), then
dispose it. -/
def c6state : MachineState :=
  runEvents envNone initState [MEvent.regExt extManual, MEvent.dispExt "ext-a"]

/-- C6 counterexample: in `part_015`, `disposeExtension` marks a `Loaded`
record `Disposed` and disposes its value but never nulls the `value`
field, so the (now registry-detached) record sits in the `Disposed` state
with a non-null value — the equivalence is not preserved by disposal. -/
theorem disposed_record_keeps_value_counterexample :
    (c6state.extRecs.get? 0).map (fun r => (r.state, r.value.isSome)) =
      some (RecordState.disposed, true) := rfl

/-- C6 (amended): for every record, *while it is reachable through its
registry*, the value is non-null exactly when the state is `Loaded`;
`part_015` removes a record from the registry before (or at the moment
of) breaking the equivalence, so every run from the initial state keeps
the registry-scoped equivalence, for extensions and for points. -/
theorem registered_value_iff_loaded :
    ∀ (env : SysEnv) (evs : List MEvent),
      (∀ id tok, alookup (runEvents env initState evs).extReg id = some tok →
        ∃ r, (runEvents env initState evs).extRecs.get? tok = some r ∧
          r.spec.id = id ∧ (r.value.isSome ↔ r.state = RecordState.loaded)) ∧
      (∀ id tok, alookup (runEvents env initState evs).ptReg id = some tok →
        ∃ r, (runEvents env initState evs).ptRecs.get? tok = some r ∧
          r.spec.id = id ∧ (r.value.isSome ↔ r.state = RecordState.loaded)) := by
  intro env evs
  exact runEvents_regOk env evs initState extRegOk_init ptRegOk_init

/-! ## Concrete fixtures for the witnesses -/

/-- A valid receiver object. -/
def rcvObj : ObjVal :=
  { tag := 1, hasAdd := true, hasRemove := true,
    disposable := false, disposeThrows := false }

def especW : ExtensionSpec :=
  { id := "e1", point := "p1", main := "", factory := "", dataPath := "", config := none }

def pspecW : PointSpec := { id := "p1", main := "", factory := "" }

def extW : Extension := Extension.create "e1" "p1" none none none

def ptW : ExtensionPoint := { id := "p1", receiver := some rcvObj, disposed := false }

/-- Both records loaded, one match continuation pending. -/
def stW : MachineState :=
  { extRecs := [{ state := RecordState.loaded, spec := especW, value := some extW }],
    ptRecs := [{ state := RecordState.loaded, spec := pspecW, value := some ptW }],
    extReg := [("e1", 0)], ptReg := [("p1", 0)], plugReg := [],
    pending := [MTask.matchSettle 0 0], log := RunLog.empty }

/-- Like `stW` but the extension record was disposed meanwhile. -/
def stW2 : MachineState :=
  { stW with extRecs := [{ state := RecordState.disposed, spec := especW, value := none }] }

def recL : ExtensionRecord :=
  { state := RecordState.loading, spec := especW, value := none }

/-- An extension record in flight. -/
def stL : MachineState :=
  { extRecs := [recL], ptRecs := [], extReg := [("e1", 0)], ptReg := [],
    plugReg := [], pending := [], log := RunLog.empty }

def recD : ExtensionRecord :=
  { state := RecordState.disposed, spec := especW, value := none }

/-- A disposed extension record (registry already cleaned). -/
def stD : MachineState :=
  { extRecs := [recD], ptRecs := [], extReg := [], ptReg := [],
    plugReg := [], pending := [], log := RunLog.empty }

/-- A state with one registered extension, point and plugin each. -/
def stP : MachineState :=
  { stW with plugReg := [("plug", { state := RecordState.unloaded, name := "plug" })] }

/-- C1 witness: firing the pending match continuation on `stW` does call
`add` — and the theorem recovers the continuation and both `Loaded`
records; firing it on `stW2` (extension disposed) leaves the state
unchanged. -/
theorem loadMatch_add_requires_both_loaded_witness :
    (∃ i ptok etok pr er,
      MEvent.fire 0 = MEvent.fire i ∧
      stW.pending.get? i = some (MTask.matchSettle ptok etok) ∧
      noSettlePending (stW.pending.eraseIdx i) ptok etok = true ∧
      stW.ptRecs.get? ptok = some pr ∧ stW.extRecs.get? etok = some er ∧
      pr.state = RecordState.loaded ∧ er.state = RecordState.loaded) ∧
    runMatchSettle stW2 0 0 = stW2 :=
  ⟨loadMatch_add_requires_both_loaded.1 envNone stW (MEvent.fire 0) (by decide),
   loadMatch_add_requires_both_loaded.2 stW2 0 0 _ _ rfl rfl (Or.inr (by decide))⟩

/-- C2 witness at concrete records: the in-flight dispose, the discarding
settle handler, and terminality. -/
theorem ext_dispose_during_load_race_safe_witness :
    (disposeExtension stL "e1" =
      { stL with extReg := aerase stL.extReg "e1",
                 extRecs := stL.extRecs.set 0 { recL with state := RecordState.disposed } }) ∧
    (runExtSettle stD 0 (Except.ok (some handleObj, none)) =
        { stD with log := safeDispose stD.log (some handleObj) } ∧
      (runExtSettle stD 0 (Except.ok (some handleObj, none))).log.disposedTags =
        stD.log.disposedTags ++
          (match some handleObj with
           | some v => cond v.disposable [v.tag] []
           | none => [])) ∧
    (applyEvent envNone stD (MEvent.dispExt "zz")).extRecs.get? 0 = some recD :=
  ⟨ext_dispose_during_load_race_safe.1 stL "e1" 0 recL (by decide) rfl rfl,
   ext_dispose_during_load_race_safe.2.1 stD 0 recD (some handleObj) none rfl rfl,
   ext_dispose_during_load_race_safe.2.2 envNone stD (MEvent.dispExt "zz") 0 recD rfl rfl⟩

/-- C3 witness: duplicate registrations on `stP` throw and leave the
state unchanged. -/
theorem duplicate_registration_throws_witness :
    (registerExtensionSpec envNone stP especW =
        Except.error ("Extension " ++ especW.id ++ " is already registered.") ∧
      applyEvent envNone stP (MEvent.regExtSpec especW) = stP) ∧
    (registerPointSpec envNone stP pspecW =
        Except.error ("Extension point " ++ pspecW.id ++ " is already registered.") ∧
      applyEvent envNone stP (MEvent.regPointSpec pspecW) = stP) ∧
    (registerPlugin stP "plug" =
        Except.error ("Plugin " ++ "plug" ++ " is already registered.") ∧
      applyEvent envNone stP (MEvent.regPlugin "plug") = stP) ∧
    (registerExtension envNone stP extW =
        Except.error ("Extension " ++ extW.id ++ " is already registered.") ∧
      applyEvent envNone stP (MEvent.regExt extW) = stP) ∧
    (registerExtensionPoint envNone stP ptW =
        Except.error ("Extension point " ++ ptW.id ++ " is already registered.") ∧
      applyEvent envNone stP (MEvent.regPoint ptW) = stP) :=
  ⟨duplicate_registration_throws.1 envNone stP especW (by decide),
   duplicate_registration_throws.2.1 envNone stP pspecW (by decide),
   duplicate_registration_throws.2.2.1 envNone stP "plug" (by decide),
   duplicate_registration_throws.2.2.2.1 envNone stP extW (by decide),
   duplicate_registration_throws.2.2.2.2 envNone stP ptW (by decide)⟩

/-- C5 witness: a concrete failing settle, with sample unaffected slots. -/
theorem ext_load_failure_is_local_witness :
    ((runExtSettle stL 0 (Except.error "boom")).extRecs.get? 0 =
        some { recL with state := RecordState.disposed }) ∧
    alookup (runExtSettle stL 0 (Except.error "boom")).extReg recL.spec.id = none ∧
    (runExtSettle stL 0 (Except.error "boom")).extRecs.get? 5 = stL.extRecs.get? 5 ∧
    alookup (runExtSettle stL 0 (Except.error "boom")).extReg "other" =
      alookup stL.extReg "other" ∧
    (runExtSettle stL 0 (Except.error "boom")).pending = stL.pending :=
  ⟨(ext_load_failure_is_local stL 0 recL "boom" rfl).1,
   (ext_load_failure_is_local stL 0 recL "boom" rfl).2.1,
   (ext_load_failure_is_local stL 0 recL "boom" rfl).2.2.2.1 5 (by decide),
   (ext_load_failure_is_local stL 0 recL "boom" rfl).2.2.2.2.1 "other" (by decide),
   (ext_load_failure_is_local stL 0 recL "boom" rfl).2.2.2.2.2.2.2⟩

/-- C6 witness: the registry-scoped equivalence evaluated on a run with
one registered (manually loaded) extension. -/
theorem registered_value_iff_loaded_witness :
    ∃ r, (runEvents envNone initState [MEvent.regExt extManual]).extRecs.get? 0 = some r ∧
      r.spec.id = "ext-a" ∧ (r.value.isSome ↔ r.state = RecordState.loaded) :=
  (registered_value_iff_loaded envNone [MEvent.regExt extManual]).1 "ext-a" 0 (by decide)

/-- A module exporting one extension factory `f`. -/
def extModW : ExtModule :=
  { factoryAt := fun nm => if nm = "f" then some (Except.ok (some handleObj)) else none }

/-- A module exporting one point factory `g` returning a valid receiver. -/
def ptModW : PtModule :=
  { factoryAt := fun nm => if nm = "g" then some (Except.ok rcvObj) else none }

/-- A loader oracle resolving exactly the two modules above. -/
def envW : SysEnv :=
  { importData := fun _ => Except.error "no data",
    importExtMain := fun p => if p = "em" then Except.ok extModW else Except.error "nf",
    importPtMain := fun p => if p = "pm" then Except.ok ptModW else Except.error "nf" }

def especW4 : ExtensionSpec :=
  { id := "e4", point := "p4", main := "em", factory := "f", dataPath := "", config := none }

def pspecW4 : PointSpec := { id := "p4", main := "pm", factory := "g" }

/-- C4 witness: with the concrete oracle both registration orders invoke
the receiver exactly once with the loaded extension value. -/
theorem match_order_independent_witness :
    (drainAll (runEvents envW initState
        [MEvent.regExtSpec especW4, MEvent.regPointSpec pspecW4])).log.recvAdds =
      [(rcvObj.tag, Extension.create especW4.id especW4.point (some handleObj) none especW4.config)] ∧
    (drainAll (runEvents envW initState
        [MEvent.regPointSpec pspecW4, MEvent.regExtSpec especW4])).log.recvAdds =
      [(rcvObj.tag, Extension.create especW4.id especW4.point (some handleObj) none especW4.config)] :=
  match_order_independent envW especW4 pspecW4 (some handleObj) none rcvObj rfl rfl rfl

/-- A live `part_017` point holding one extension handle. -/
def epLive : ExtensionPoint17 :=
  { id := "p", disposed := false, map := [("e", handleObj)] }

/-- A disposed `part_017` point. -/
def epDead : ExtensionPoint17 := { id := "p", disposed := true, map := [] }

/-- A receiver function returning a fixed handle. -/
def rcvFun : ExtArg → ObjVal := fun _ => handleObj

def argE : ExtArg := { id := "e", point := "p" }

def argE2 : ExtArg := { id := "e2", point := "p" }

def argBad : ExtArg := { id := "x", point := "q" }

/-- C7 witness: the four `add`/`remove` behaviors at concrete inputs. -/
theorem ep17_add_remove_behavior_witness :
    (ep17add epLive rcvFun argE =
      { pt := epLive, rcvCalls := [], disposedTags := [], thrown := none }) ∧
    (ep17add epLive rcvFun argE2 =
      { pt := { epLive with map := aset epLive.map argE2.id (rcvFun argE2) },
        rcvCalls := [argE2], disposedTags := [], thrown := none }) ∧
    (ep17remove epLive "zz" =
      { pt := epLive, rcvCalls := [], disposedTags := [], thrown := none }) ∧
    ((ep17remove epLive "e").pt = { epLive with map := aerase epLive.map "e" } ∧
      (ep17remove epLive "e").rcvCalls = [] ∧
      (ep17remove epLive "e").disposedTags = cond handleObj.disposable [handleObj.tag] []) :=
  ⟨ep17_add_remove_behavior.1 epLive rcvFun argE rfl rfl (by decide),
   ep17_add_remove_behavior.2.1 epLive rcvFun argE2 rfl rfl (by decide),
   ep17_add_remove_behavior.2.2.1 epLive "zz" rfl (by decide),
   ep17_add_remove_behavior.2.2.2 epLive "e" handleObj rfl (by decide)⟩

/-- C10 witness: the guard errors at concrete inputs. -/
theorem ep17_guard_errors_witness :
    (ep17add epDead rcvFun argE =
      { pt := epDead, rcvCalls := [], disposedTags := [],
        thrown := some "Extension point is disposed." }) ∧
    (ep17remove epDead "e" =
      { pt := epDead, rcvCalls := [], disposedTags := [],
        thrown := some "Extension point is disposed." }) ∧
    (ep17add epLive rcvFun argBad =
      { pt := epLive, rcvCalls := [], disposedTags := [],
        thrown := some ("Extension point mismatch: " ++ epLive.id ++ " != " ++ argBad.point) }) :=
  ⟨ep17_guard_errors.1 epDead rcvFun argE rfl,
   ep17_guard_errors.2.1 epDead "e" rfl,
   ep17_guard_errors.2.2 epLive rcvFun argBad rfl (by decide)⟩

/-- The state produced by manually registering `extManual` on the empty
registry. -/
def c9okState : MachineState :=
  { extRecs := [{ state := RecordState.loaded,
                  spec := { id := "ext-a", point := "pt-a", main := "",
                            factory := "", dataPath := "", config := none },
                  value := some extManual }],
    ptRecs := [], extReg := [("ext-a", 0)], ptReg := [], plugReg := [],
    pending := [], log := RunLog.empty }

/-- A manually constructed extension point value. -/
def ptManual : ExtensionPoint := { id := "pt-b", receiver := some rcvObj, disposed := false }

/-- The state produced by manually registering `ptManual` on the empty
registry. -/
def c9okPtState : MachineState :=
  { extRecs := [], ptRecs := [{ state := RecordState.loaded,
                                spec := { id := "pt-b", main := "", factory := "" },
                                value := some ptManual }],
    extReg := [], ptReg := [("pt-b", 0)], plugReg := [],
    pending := [], log := RunLog.empty }

/-- C9 witness: record states at creation, at concrete inputs. -/
theorem record_creation_states_witness :
    ((createExtRecord especW).state = RecordState.unloaded ∧
      (createExtRecord especW).value = none) ∧
    (registerPlugin initState "plug" =
      Except.ok
        { initState with
            plugReg := aset initState.plugReg "plug"
              (PluginRecord.mk RecordState.unloaded "plug") }) ∧
    (c9okState.extRecs.get? initState.extRecs.length =
      some { state := RecordState.loaded,
             spec := { id := extManual.id, point := extManual.point, main := "",
                       factory := "", dataPath := "", config := none },
             value := some extManual }) ∧
    (c9okPtState.ptRecs.get? initState.ptRecs.length =
      some { state := RecordState.loaded,
             spec := { id := ptManual.id, main := "", factory := "" },
             value := some ptManual }) :=
  ⟨record_creation_states.1 especW,
   record_creation_states.2.2.1 initState "plug" rfl,
   record_creation_states.2.2.2.1 envNone initState extManual c9okState rfl,
   record_creation_states.2.2.2.2 envNone initState ptManual c9okPtState rfl⟩
